import Mathlib

/-!
Verification of the signal-to-settlement pipeline of the bybitron trading
backend, as a shallow embedding in Lean 4.

Conventions of the embedding:
* JavaScript numbers are modelled as rationals (`ℚ`); all amounts in the
  claims are exact decimal fractions, so `ℚ` reproduces the arithmetic the
  code performs on them.
* `crypto.randomUUID()` is modelled by a fresh-id counter `next_id` carried
  in the database state: each allocation returns the counter and bumps it.
  Freshness of generated ids (distinctness from all stored ids) is the
  well-formedness invariant `WF` below.
* The lowdb table arrays become Lean lists; `push` appends at the end, and
  in-place mutation of a record found by `find` becomes an update of the
  first matching list element (`updateFirstBal`), which is observationally
  the same as the aliased mutation the code performs.
* Timestamps (ISO strings in the code) are modelled as natural numbers
  where a claim depends on them and omitted otherwise.
-/

namespace Bybitron

/-- Deployment environment, `'testnet' | 'mainnet'` in `db/index.ts`. -/
inductive Env where
  | testnet
  | mainnet
deriving DecidableEq, Repr

/-- `Profile` from `db/index.ts` (the fields the referral chain reads). -/
structure Profile where
  id : Nat
  user_id : Nat
  referrer_id : Option Nat
deriving DecidableEq, Repr

/-- `GasFeeBalance` from `db/index.ts`. -/
structure GasFeeBalance where
  id : Nat
  user_id : Nat
  environment : Env
  balance : ℚ
  total_deposited : ℚ
  total_deducted : ℚ
deriving DecidableEq, Repr

/-- `GasFeeTransaction` from `db/index.ts` (description omitted). -/
structure GasFeeTransaction where
  id : Nat
  user_id : Nat
  amount : ℚ
  transaction_type : String
  trade_id : Option Nat
  balance_before : ℚ
  balance_after : ℚ
  environment : Env
deriving DecidableEq, Repr

/-- `ProfitSettlement` from `db/index.ts`. -/
structure ProfitSettlement where
  id : Nat
  user_id : Nat
  trade_id : Nat
  gross_profit : ℚ
  service_fee_rate : ℚ
  service_fee_amount : ℚ
  net_profit : ℚ
deriving DecidableEq, Repr

/-- `ReferralCommission` from `db/index.ts` (status is always pushed as
`'paid'` by the engine, kept as a string field). -/
structure ReferralCommission where
  id : Nat
  beneficiary_user_id : Nat
  source_user_id : Nat
  trade_id : Nat
  level : Nat
  gross_profit : ℚ
  commission_rate : ℚ
  commission_amount : ℚ
  status : String
deriving DecidableEq, Repr

/-- `AdminEarning` from `db/index.ts`. -/
structure AdminEarning where
  id : Nat
  source_user_id : Nat
  trade_id : Nat
  gross_profit : ℚ
  total_service_fee : ℚ
  referral_commissions_paid : ℚ
  admin_share : ℚ
deriving DecidableEq, Repr

/-- `Trade` from `db/index.ts` (the fields the pipeline reads/writes;
`created_at` is an abstract timestamp in minutes-since-epoch). -/
structure Trade where
  id : Nat
  user_id : Nat
  symbol : String
  side : String
  price : ℚ
  quantity : ℚ
  realized_pnl : Option ℚ
  status : String
  triggered_by : Option String
  environment : Env
  created_at : Nat
deriving DecidableEq, Repr

/-- Position side. -/
inductive PosSide where
  | long
  | short
deriving DecidableEq, Repr

/-- `Position` from `db/index.ts` (the fields the reconciler reads/writes). -/
structure Position where
  id : Nat
  user_id : Nat
  symbol : String
  side : PosSide
  size : ℚ
  entry_price : ℚ
  current_price : Option ℚ
  unrealized_pnl : ℚ
  is_open : Bool
  exchange : String
  environment : Env
deriving DecidableEq, Repr

/-- The lowdb database state touched by the monitor/settlement pipeline,
plus the fresh-id counter that models `crypto.randomUUID()`. -/
structure DB where
  profiles : List Profile
  trades : List Trade
  positions : List Position
  gas_fee_balances : List GasFeeBalance
  gas_fee_transactions : List GasFeeTransaction
  profit_settlements : List ProfitSettlement
  referral_commissions : List ReferralCommission
  admin_earnings : List AdminEarning
  next_id : Nat
deriving DecidableEq, Repr

/-- `SERVICE_FEE_RATE = 0.3` (`positionMonitor.ts`). -/
def SERVICE_FEE_RATE : ℚ := 3 / 10

/-- `REFERRAL_RATES = [0.005, 0.003, 0.002]` (`positionMonitor.ts`). -/
def REFERRAL_RATES : List ℚ := [5 / 1000, 3 / 1000, 2 / 1000]

/-- `REFERRAL_RATES[entry.level - 1] || 0` from the referral loop. -/
def rateOf (level : Nat) : ℚ := REFERRAL_RATES.getD (level - 1) 0

/-- The `while (currentProfile?.referrer_id && level <= 3)` loop body of
`getReferralChain`, with the remaining levels as structural fuel (the loop
runs at most while `level ≤ 3`, i.e. three iterations from `level = 1`). -/
def getReferralChainGo (profiles : List Profile) : Profile → Nat → Nat → List (Nat × Profile)
  | _, _, 0 => []
  | current, level, fuel + 1 =>
    match current.referrer_id with
    | none => []
    | some rid =>
      match profiles.find? (fun q => q.id == rid) with
      | none => []
      | some referrerProfile =>
        (level, referrerProfile) :: getReferralChainGo profiles referrerProfile (level + 1) fuel

/-- The referral chain of `userId` within a profile table. -/
def profileChain (profiles : List Profile) (userId : Nat) : List (Nat × Profile) :=
  match profiles.find? (fun p => p.user_id == userId) with
  | none => []
  | some p => getReferralChainGo profiles p 1 3

/-- `getReferralChain` (`positionMonitor.ts` lines 208-224): walk
`profile → referrer profile → its referrer`, up to 3 levels, stopping when a
link is missing. -/
def getReferralChain (db : DB) (userId : Nat) : List (Nat × Profile) :=
  profileChain db.profiles userId

/-- Key predicate for a gas-fee balance record. -/
def balKey (userId : Nat) (environment : Env) (b : GasFeeBalance) : Bool :=
  b.user_id == userId && b.environment == environment

/-- In-place mutation of the record returned by `find`, as the functional
update of the first matching list element. -/
def updateFirstBal (k : GasFeeBalance → Bool) (f : GasFeeBalance → GasFeeBalance) :
    List GasFeeBalance → List GasFeeBalance
  | [] => []
  | b :: bs => if k b then f b :: bs else b :: updateFirstBal k f bs

/-- The creating half of `getOrCreateGasBalance` (`positionMonitor.ts`
lines 226-245): if no record matches `(userId, environment)`, push a fresh
zero record. -/
def ensureGasBalance (db : DB) (userId : Nat) (environment : Env) : DB :=
  if db.gas_fee_balances.any (balKey userId environment) then db
  else
    { db with
      next_id := db.next_id + 1
      gas_fee_balances := db.gas_fee_balances ++
        [{ id := db.next_id, user_id := userId, environment := environment
           balance := 0, total_deposited := 0, total_deducted := 0 }] }

/-- Balance of the first record matching `(userId, environment)` in a
balance table (0 when absent). -/
def balanceIn (l : List GasFeeBalance) (userId : Nat) (environment : Env) : ℚ :=
  match l.find? (balKey userId environment) with
  | some b => b.balance
  | none => 0

/-- Total deducted of the first record matching `(userId, environment)` in a
balance table (0 when absent). -/
def deductedIn (l : List GasFeeBalance) (userId : Nat) (environment : Env) : ℚ :=
  match l.find? (balKey userId environment) with
  | some b => b.total_deducted
  | none => 0

/-- The reading half of `getOrCreateGasBalance`: the balance of the first
matching record (after `ensureGasBalance` a match always exists). -/
def gasBalanceOf (db : DB) (userId : Nat) (environment : Env) : ℚ :=
  balanceIn db.gas_fee_balances userId environment

/-- Total deducted of the first matching gas balance record. -/
def gasDeductedOf (db : DB) (userId : Nat) (environment : Env) : ℚ :=
  deductedIn db.gas_fee_balances userId environment

/-- Mutate the first matching gas balance record. -/
def updateGasBalance (db : DB) (userId : Nat) (environment : Env)
    (f : GasFeeBalance → GasFeeBalance) : DB :=
  { db with gas_fee_balances := updateFirstBal (balKey userId environment) f db.gas_fee_balances }

/-- The referral loop of `processProfitSharing` (`positionMonitor.ts` lines
289-332): for each chain entry, look up the rate, skip non-positive
commissions, push a commission row, credit the beneficiary balance, push a
ledger transaction, and accumulate `totalReferralPaid`. Returns the updated
database and the accumulated total. -/
def payReferralChain (userId tradeId : Nat) (grossProfit : ℚ) (environment : Env) :
    DB → List (Nat × Profile) → DB × ℚ
  | db, [] => (db, 0)
  | db, (level, referrerProfile) :: rest =>
    let rate := rateOf level
    let commission := grossProfit * rate
    if commission ≤ 0 then payReferralChain userId tradeId grossProfit environment db rest
    else
      let beneficiary := referrerProfile.user_id
      let db1 : DB :=
        { db with
          next_id := db.next_id + 1
          referral_commissions := db.referral_commissions ++
            [{ id := db.next_id, beneficiary_user_id := beneficiary
               source_user_id := userId, trade_id := tradeId, level := level
               gross_profit := grossProfit, commission_rate := rate
               commission_amount := commission, status := "paid" }] }
      let db2 := ensureGasBalance db1 beneficiary environment
      let beneficiaryBefore := gasBalanceOf db2 beneficiary environment
      let db3 := updateGasBalance db2 beneficiary environment
        (fun b => { b with
          balance := beneficiaryBefore + commission
          total_deposited := b.total_deposited + commission })
      let db4 : DB :=
        { db3 with
          next_id := db3.next_id + 1
          gas_fee_transactions := db3.gas_fee_transactions ++
            [{ id := db3.next_id, user_id := beneficiary, amount := commission
               transaction_type := "referral_commission", trade_id := some tradeId
               balance_before := beneficiaryBefore
               balance_after := beneficiaryBefore + commission
               environment := environment }] }
      let out := payReferralChain userId tradeId grossProfit environment db4 rest
      (out.1, commission + out.2)

/-- `processProfitSharing` (`positionMonitor.ts` lines 247-345): for
`grossProfit > 0`, record a `ProfitSettlement`, deduct the 30% service fee
from the trading user's gas-fee balance with a ledger transaction, pay the
referral chain, and record an `AdminEarning` with
`admin_share = fee - totalReferralPaid`. For `grossProfit ≤ 0` it returns
immediately. -/
def processProfitSharing (db : DB) (userId tradeId : Nat) (grossProfit : ℚ)
    (environment : Env) : DB :=
  if grossProfit ≤ 0 then db
  else
    let serviceFee := grossProfit * SERVICE_FEE_RATE
    let netProfit := grossProfit - serviceFee
    let db1 : DB :=
      { db with
        next_id := db.next_id + 1
        profit_settlements := db.profit_settlements ++
          [{ id := db.next_id, user_id := userId, trade_id := tradeId
             gross_profit := grossProfit, service_fee_rate := SERVICE_FEE_RATE
             service_fee_amount := serviceFee, net_profit := netProfit }] }
    let db2 := ensureGasBalance db1 userId environment
    let balanceBefore := gasBalanceOf db2 userId environment
    let db3 := updateGasBalance db2 userId environment
      (fun b => { b with
        balance := balanceBefore - serviceFee
        total_deducted := b.total_deducted + serviceFee })
    let db4 : DB :=
      { db3 with
        next_id := db3.next_id + 1
        gas_fee_transactions := db3.gas_fee_transactions ++
          [{ id := db3.next_id, user_id := userId, amount := -serviceFee
             transaction_type := "service_fee", trade_id := some tradeId
             balance_before := balanceBefore
             balance_after := balanceBefore - serviceFee
             environment := environment }] }
    let chain := getReferralChain db4 userId
    let paid := payReferralChain userId tradeId grossProfit environment db4 chain
    let db5 := paid.1
    let totalReferralPaid := paid.2
    let adminShare := serviceFee - totalReferralPaid
    { db5 with
      next_id := db5.next_id + 1
      admin_earnings := db5.admin_earnings ++
        [{ id := db5.next_id, source_user_id := userId, trade_id := tradeId
           gross_profit := grossProfit, total_service_fee := serviceFee
           referral_commissions_paid := totalReferralPaid
           admin_share := adminShare }] }

/-- Venue-reported position state, the result of `checkExchangePosition`
(`positionMonitor.ts` lines 148-206) on a successful venue response:
`isOpen` is derived there as `size !== 0`. -/
structure ExchangePos where
  currentSize : ℚ
  unrealizedPnl : ℚ
  currentPrice : ℚ
deriving DecidableEq, Repr

/-- `isOpen: size !== 0` from `checkExchangePosition`. -/
def exchangePosIsOpen (ex : ExchangePos) : Bool :=
  ex.currentSize != 0

/-- In-place mutation of `db.data.positions[posIndex]` where
`posIndex = findIndex(p => p.id === id)`: update the first matching
list element. -/
def updateFirstPos (pid : Nat) (f : Position → Position) :
    List Position → List Position
  | [] => []
  | p :: ps => if p.id == pid then f p :: ps else p :: updateFirstPos pid f ps

/-- The closing `Trade` the reconciler pushes when a position closed on the
venue (`positionMonitor.ts` lines 474-490): opposite side, venue mark price
falling back to entry price when the venue reports `0`, realized PnL taken
from the venue's unrealized PnL, `triggered_by: 'position_monitor'`. -/
def closingTradeOf (tid : Nat) (position : Position) (ex : ExchangePos) (now : Nat) : Trade :=
  { id := tid
    user_id := position.user_id
    symbol := position.symbol
    side := if position.side == PosSide.long then "sell" else "buy"
    price := if ex.currentPrice == 0 then position.entry_price else ex.currentPrice
    quantity := position.size
    realized_pnl := some ex.unrealizedPnl
    status := "filled"
    triggered_by := some "position_monitor"
    environment := position.environment
    created_at := now }

/-- The price/PnL refresh step of the per-position loop
(`positionMonitor.ts` lines 453-461): when the venue reports a positive
mark price, write it and the unrealized PnL into the stored record. -/
def priceRefresh (db : DB) (position : Position) (ex : ExchangePos) : DB :=
  if ex.currentPrice > 0 then
    let upd : Position → Position := fun p =>
      { p with current_price := some ex.currentPrice, unrealized_pnl := ex.unrealizedPnl }
    { db with positions := updateFirstPos position.id upd db.positions }
  else db

/-- The trade-recording and settlement tail of the close branch
(`positionMonitor.ts` lines 473-497), applied to the database in which the
position record has already been marked closed: push the closing trade with
a fresh id and invoke `processProfitSharing` on it. -/
def closeAndSettle (dbc : DB) (position : Position) (ex : ExchangePos) (now : Nat) : DB :=
  let tradeId := dbc.next_id
  let dbt : DB :=
    { dbc with
      next_id := dbc.next_id + 1
      trades := dbc.trades ++ [closingTradeOf tradeId position ex now] }
  processProfitSharing dbt position.user_id tradeId ex.unrealizedPnl position.environment

/-- One iteration of the reconciler's per-position loop
(`positionMonitor.ts` lines 441-511): query the venue (the oracle `venue`,
keyed by position id), update current price and unrealized PnL when the
venue reports a positive mark price, and when the venue reports the
position closed while the snapshot record is open, clear the open flag,
push the closing trade and invoke `processProfitSharing` on it. -/
def reconcilePosition (venue : Nat → ExchangePos) (now : Nat) (db : DB)
    (position : Position) : DB :=
  let ex := venue position.id
  let dbp := priceRefresh db position ex
  if !exchangePosIsOpen ex && position.is_open then
    if dbp.positions.any (fun p => p.id == position.id) then
      let closeUpd : Position → Position := fun p =>
        { p with is_open := false, unrealized_pnl := ex.unrealizedPnl }
      closeAndSettle { dbp with positions := updateFirstPos position.id closeUpd dbp.positions }
        position ex now
    else dbp
  else dbp

/-- Trade ids already covered by a settlement row (the seed of the
`settledTradeIds` set in the backfill pass). -/
def settlementTradeIds (db : DB) : List Nat :=
  db.profit_settlements.map (fun s => s.trade_id)

/-- The backfill filter (`positionMonitor.ts` lines 375-377): filled trades
with positive realized PnL. -/
def profitableFilledTrades (db : DB) : List Trade :=
  db.trades.filter (fun t => decide (0 < t.realized_pnl.getD 0) && t.status == "filled")

/-- The backfill loop (`positionMonitor.ts` lines 379-388): for each
profitable filled trade not yet in the settled set, invoke
`processProfitSharing` and add its id to the set. -/
def backfillGo : List Trade → List Nat → DB → DB
  | [], _, db => db
  | t :: ts, settled, db =>
    if t.id ∈ settled then backfillGo ts settled db
    else backfillGo ts (t.id :: settled)
      (processProfitSharing db t.user_id t.id (t.realized_pnl.getD 0) t.environment)

/-- The backfill pass of the position-monitor tick (`positionMonitor.ts`
lines 366-389). -/
def backfill (db : DB) : DB :=
  backfillGo (profitableFilledTrades db) (settlementTradeIds db) db

/-- One position-monitor tick (`positionMonitor.ts` lines 347-530): the
backfill pass, then the reconciliation loop over a snapshot of the locally
open positions. The venue credential lookup (the group-key construction
and `split('-')` parse, see `groupKeyOf`/`keyParts`) is abstracted as the
predicate `hasKeys`: positions in a group without a matching active
credential are skipped. -/
def monitorTick (hasKeys : Position → Bool) (venue : Nat → ExchangePos) (now : Nat)
    (db : DB) : DB :=
  let db1 := backfill db
  let snapshot := (db1.positions.filter (fun p => p.is_open)).filter hasKeys
  snapshot.foldl (reconcilePosition venue now) db1

/-- The environment of one tick invocation: credential availability, the
venue's responses, and the wall clock. -/
structure TickEnv where
  hasKeys : Position → Bool
  venue : Nat → ExchangePos
  now : Nat

/-- A sequence of position-monitor tick invocations. -/
def runTicks (db : DB) : List TickEnv → DB
  | [] => db
  | e :: es => runTicks (monitorTick e.hasKeys e.venue e.now db) es

/-- Well-formedness: every settlement's trade id and every trade id is below
the fresh-id counter, and settlement trade ids are pairwise distinct (at
most one settlement per trade id). -/
def WF (db : DB) : Prop :=
  (settlementTradeIds db).Nodup ∧
    (∀ i ∈ settlementTradeIds db, i < db.next_id) ∧
    (∀ t ∈ db.trades, t.id < db.next_id)

/-! ### Observation projections used by the theorems -/

/-- The settlement fields the spec talks about. -/
def settlementProj (s : ProfitSettlement) : Nat × ℚ × ℚ × ℚ :=
  (s.trade_id, s.gross_profit, s.service_fee_amount, s.net_profit)

/-- The ledger-transaction fields the spec talks about. -/
def txProj (t : GasFeeTransaction) : Nat × ℚ × String × ℚ × ℚ :=
  (t.user_id, t.amount, t.transaction_type, t.balance_before, t.balance_after)

/-- The commission fields the spec talks about. -/
def commProj (c : ReferralCommission) : Nat × Nat × Nat × ℚ :=
  (c.beneficiary_user_id, c.trade_id, c.level, c.commission_amount)

/-- The admin-earning fields the spec talks about. -/
def earnProj (a : AdminEarning) : Nat × ℚ × ℚ × ℚ :=
  (a.trade_id, a.total_service_fee, a.referral_commissions_paid, a.admin_share)

/-! ### Field-preservation lemmas -/

theorem ensureGasBalance_profiles (db : DB) (u : Nat) (e : Env) :
    (ensureGasBalance db u e).profiles = db.profiles := by
  unfold ensureGasBalance; split <;> rfl

theorem ensureGasBalance_trades (db : DB) (u : Nat) (e : Env) :
    (ensureGasBalance db u e).trades = db.trades := by
  unfold ensureGasBalance; split <;> rfl

theorem ensureGasBalance_positions (db : DB) (u : Nat) (e : Env) :
    (ensureGasBalance db u e).positions = db.positions := by
  unfold ensureGasBalance; split <;> rfl

theorem ensureGasBalance_settlements (db : DB) (u : Nat) (e : Env) :
    (ensureGasBalance db u e).profit_settlements = db.profit_settlements := by
  unfold ensureGasBalance; split <;> rfl

theorem ensureGasBalance_commissions (db : DB) (u : Nat) (e : Env) :
    (ensureGasBalance db u e).referral_commissions = db.referral_commissions := by
  unfold ensureGasBalance; split <;> rfl

theorem ensureGasBalance_earnings (db : DB) (u : Nat) (e : Env) :
    (ensureGasBalance db u e).admin_earnings = db.admin_earnings := by
  unfold ensureGasBalance; split <;> rfl

theorem ensureGasBalance_txs (db : DB) (u : Nat) (e : Env) :
    (ensureGasBalance db u e).gas_fee_transactions = db.gas_fee_transactions := by
  unfold ensureGasBalance; split <;> rfl

theorem ensureGasBalance_next_id (db : DB) (u : Nat) (e : Env) :
    db.next_id ≤ (ensureGasBalance db u e).next_id := by
  unfold ensureGasBalance; split
  · exact Nat.le_refl _
  · exact Nat.le_succ _

/-! ### Referral-chain structure lemmas -/

theorem getReferralChainGo_levels (profiles : List Profile) :
    ∀ (f : Nat) (p : Profile) (lv : Nat), ∀ e ∈ getReferralChainGo profiles p lv f,
      lv ≤ e.1 ∧ e.1 < lv + f := by
  intro f
  induction f with
  | zero => intro p lv e he; simp [getReferralChainGo] at he
  | succ n ih =>
    intro p lv e he
    unfold getReferralChainGo at he
    split at he
    · simp at he
    · split at he
      · simp at he
      · rename_i rp _
        simp only [List.mem_cons] at he
        rcases he with rfl | hmem
        · exact ⟨Nat.le_refl _, by omega⟩
        · have h := ih rp (lv + 1) e hmem
          omega

theorem profileChain_levels (profiles : List Profile) (u : Nat) :
    ∀ e ∈ profileChain profiles u, 1 ≤ e.1 ∧ e.1 ≤ 3 := by
  intro e he
  unfold profileChain at he
  split at he
  · simp at he
  · rename_i p _
    have h := getReferralChainGo_levels profiles 3 p 1 e he
    omega

theorem getReferralChain_levels (db : DB) (u : Nat) :
    ∀ e ∈ getReferralChain db u, 1 ≤ e.1 ∧ e.1 ≤ 3 :=
  profileChain_levels db.profiles u

theorem rateOf_pos (l : Nat) (h1 : 1 ≤ l) (h2 : l ≤ 3) : 0 < rateOf l := by
  interval_cases l <;> norm_num [rateOf, REFERRAL_RATES]

theorem getReferralChain_profiles_congr (db1 db2 : DB) (u : Nat)
    (h : db1.profiles = db2.profiles) :
    getReferralChain db1 u = getReferralChain db2 u := by
  unfold getReferralChain; rw [h]

/-! ### Referral-loop lemmas -/

theorem payReferralChain_profiles (u tid : Nat) (g : ℚ) (env : Env) :
    ∀ (chain : List (Nat × Profile)) (db : DB),
      ((payReferralChain u tid g env db chain).1).profiles = db.profiles := by
  intro chain
  induction chain with
  | nil => intro db; rfl
  | cons e rest ih =>
    intro db
    obtain ⟨level, prof⟩ := e
    simp only [payReferralChain]
    by_cases h : g * rateOf level ≤ 0
    · rw [if_pos h]; exact ih db
    · rw [if_neg h]
      simp only [ih, ensureGasBalance_profiles, updateGasBalance]

theorem payReferralChain_trades (u tid : Nat) (g : ℚ) (env : Env) :
    ∀ (chain : List (Nat × Profile)) (db : DB),
      ((payReferralChain u tid g env db chain).1).trades = db.trades := by
  intro chain
  induction chain with
  | nil => intro db; rfl
  | cons e rest ih =>
    intro db
    obtain ⟨level, prof⟩ := e
    simp only [payReferralChain]
    by_cases h : g * rateOf level ≤ 0
    · rw [if_pos h]; exact ih db
    · rw [if_neg h]
      simp only [ih, ensureGasBalance_trades, updateGasBalance]

theorem payReferralChain_positions (u tid : Nat) (g : ℚ) (env : Env) :
    ∀ (chain : List (Nat × Profile)) (db : DB),
      ((payReferralChain u tid g env db chain).1).positions = db.positions := by
  intro chain
  induction chain with
  | nil => intro db; rfl
  | cons e rest ih =>
    intro db
    obtain ⟨level, prof⟩ := e
    simp only [payReferralChain]
    by_cases h : g * rateOf level ≤ 0
    · rw [if_pos h]; exact ih db
    · rw [if_neg h]
      simp only [ih, ensureGasBalance_positions, updateGasBalance]

theorem payReferralChain_settlements (u tid : Nat) (g : ℚ) (env : Env) :
    ∀ (chain : List (Nat × Profile)) (db : DB),
      ((payReferralChain u tid g env db chain).1).profit_settlements =
        db.profit_settlements := by
  intro chain
  induction chain with
  | nil => intro db; rfl
  | cons e rest ih =>
    intro db
    obtain ⟨level, prof⟩ := e
    simp only [payReferralChain]
    by_cases h : g * rateOf level ≤ 0
    · rw [if_pos h]; exact ih db
    · rw [if_neg h]
      simp only [ih, ensureGasBalance_settlements, updateGasBalance]

theorem payReferralChain_earnings (u tid : Nat) (g : ℚ) (env : Env) :
    ∀ (chain : List (Nat × Profile)) (db : DB),
      ((payReferralChain u tid g env db chain).1).admin_earnings =
        db.admin_earnings := by
  intro chain
  induction chain with
  | nil => intro db; rfl
  | cons e rest ih =>
    intro db
    obtain ⟨level, prof⟩ := e
    simp only [payReferralChain]
    by_cases h : g * rateOf level ≤ 0
    · rw [if_pos h]; exact ih db
    · rw [if_neg h]
      simp only [ih, ensureGasBalance_earnings, updateGasBalance]

theorem payReferralChain_next_id (u tid : Nat) (g : ℚ) (env : Env) :
    ∀ (chain : List (Nat × Profile)) (db : DB),
      db.next_id ≤ ((payReferralChain u tid g env db chain).1).next_id := by
  intro chain
  induction chain with
  | nil => intro db; exact Nat.le_refl _
  | cons e rest ih =>
    intro db
    obtain ⟨level, prof⟩ := e
    simp only [payReferralChain]
    by_cases h : g * rateOf level ≤ 0
    · rw [if_pos h]; exact ih db
    · rw [if_neg h]
      refine le_trans ?_ (ih _)
      simp only [updateGasBalance, ensureGasBalance]
      split <;> simp <;> omega

theorem payReferralChain_commissions (u tid : Nat) (g : ℚ) (env : Env) :
    ∀ (chain : List (Nat × Profile)) (db : DB),
      (∀ e ∈ chain, 0 < g * rateOf e.1) →
      ((payReferralChain u tid g env db chain).1).referral_commissions.map commProj =
        db.referral_commissions.map commProj ++
          chain.map (fun e => (e.2.user_id, tid, e.1, g * rateOf e.1)) := by
  intro chain
  induction chain with
  | nil => intro db _; simp [payReferralChain]
  | cons e rest ih =>
    intro db hpos
    obtain ⟨level, prof⟩ := e
    have hp : 0 < g * rateOf level := hpos _ (List.mem_cons_self _ _)
    simp only [payReferralChain]
    rw [if_neg (not_le.mpr hp)]
    simp only []
    rw [ih _ (fun e he => hpos e (List.mem_cons_of_mem _ he))]
    simp [ensureGasBalance_commissions, updateGasBalance, commProj]

theorem payReferralChain_txs (u tid : Nat) (g : ℚ) (env : Env) :
    ∀ (chain : List (Nat × Profile)) (db : DB),
      (∀ e ∈ chain, 0 < g * rateOf e.1) →
      ((payReferralChain u tid g env db chain).1).gas_fee_transactions.map
          (fun t => (t.user_id, t.amount, t.transaction_type)) =
        db.gas_fee_transactions.map (fun t => (t.user_id, t.amount, t.transaction_type)) ++
          chain.map (fun e => (e.2.user_id, g * rateOf e.1, "referral_commission")) := by
  intro chain
  induction chain with
  | nil => intro db _; simp [payReferralChain]
  | cons e rest ih =>
    intro db hpos
    obtain ⟨level, prof⟩ := e
    have hp : 0 < g * rateOf level := hpos _ (List.mem_cons_self _ _)
    simp only [payReferralChain]
    rw [if_neg (not_le.mpr hp)]
    simp only []
    rw [ih _ (fun e he => hpos e (List.mem_cons_of_mem _ he))]
    simp [ensureGasBalance_txs, updateGasBalance]

theorem payReferralChain_total (u tid : Nat) (g : ℚ) (env : Env) :
    ∀ (chain : List (Nat × Profile)) (db : DB),
      (∀ e ∈ chain, 0 < g * rateOf e.1) →
      (payReferralChain u tid g env db chain).2 =
        (chain.map (fun e => g * rateOf e.1)).sum := by
  intro chain
  induction chain with
  | nil => intro db _; simp [payReferralChain]
  | cons e rest ih =>
    intro db hpos
    obtain ⟨level, prof⟩ := e
    have hp : 0 < g * rateOf level := hpos _ (List.mem_cons_self _ _)
    simp only [payReferralChain]
    rw [if_neg (not_le.mpr hp)]
    simp only [List.map_cons, List.sum_cons]
    rw [ih _ (fun e he => hpos e (List.mem_cons_of_mem _ he))]

/-! ### Ledger (total_deducted) lemmas -/

theorem deductedIn_append_new (l : List GasFeeBalance) (b : GasFeeBalance)
    (hb : b.total_deducted = 0) (u : Nat) (e : Env) :
    deductedIn (l ++ [b]) u e = deductedIn l u e := by
  unfold deductedIn
  rw [List.find?_append]
  cases hf : l.find? (balKey u e) with
  | some c => simp
  | none =>
    simp only [Option.none_or]
    cases hk : List.find? (balKey u e) [b] with
    | none => rfl
    | some c =>
      simp only [List.find?_singleton] at hk
      split at hk
      · cases hk; simpa using hb
      · cases hk

theorem deductedIn_ensure (db : DB) (u : Nat) (e : Env) (u' : Nat) (e' : Env) :
    deductedIn (ensureGasBalance db u e).gas_fee_balances u' e' =
      deductedIn db.gas_fee_balances u' e' := by
  unfold ensureGasBalance
  split
  · rfl
  · exact deductedIn_append_new _ _ rfl u' e'

theorem ensure_any (db : DB) (u : Nat) (e : Env) :
    (ensureGasBalance db u e).gas_fee_balances.any (balKey u e) = true := by
  unfold ensureGasBalance
  split
  · assumption
  · simp [balKey]

theorem deductedIn_update_add (u : Nat) (e : Env) (fee B : ℚ) :
    ∀ (l : List GasFeeBalance), l.any (balKey u e) = true →
      deductedIn (updateFirstBal (balKey u e)
          (fun b => { b with balance := B, total_deducted := b.total_deducted + fee }) l) u e =
        deductedIn l u e + fee := by
  intro l
  induction l with
  | nil => intro h; simp at h
  | cons b bs ih =>
    intro hex
    by_cases hb : balKey u e b
    · simp only [updateFirstBal, if_pos hb]
      unfold deductedIn
      rw [List.find?_cons_of_pos _ (by exact hb), List.find?_cons_of_pos _ (by exact hb)]
    · simp only [updateFirstBal, if_neg hb]
      unfold deductedIn
      rw [List.find?_cons_of_neg _ (by simpa using hb),
        List.find?_cons_of_neg _ (by simpa using hb)]
      have hex' : bs.any (balKey u e) = true := by
        simp only [List.any_cons, hb, Bool.false_or] at hex
        exact hex
      exact ih hex'

theorem deductedIn_update_deposit (k : GasFeeBalance → Bool) (B c : ℚ) (u : Nat) (e : Env) :
    ∀ (l : List GasFeeBalance),
      deductedIn (updateFirstBal k
          (fun b => { b with balance := B, total_deposited := b.total_deposited + c }) l) u e =
        deductedIn l u e := by
  intro l
  induction l with
  | nil => rfl
  | cons b bs ih =>
    by_cases hb : k b
    · simp only [updateFirstBal, if_pos hb]
      by_cases hqb : balKey u e b
      · unfold deductedIn
        rw [List.find?_cons_of_pos _ (by exact hqb), List.find?_cons_of_pos _ (by exact hqb)]
      · unfold deductedIn
        rw [List.find?_cons_of_neg _ (by simpa using hqb),
          List.find?_cons_of_neg _ (by simpa using hqb)]
    · simp only [updateFirstBal, if_neg hb]
      by_cases hqb : balKey u e b
      · unfold deductedIn
        rw [List.find?_cons_of_pos _ (by exact hqb), List.find?_cons_of_pos _ (by exact hqb)]
      · unfold deductedIn
        rw [List.find?_cons_of_neg _ (by simpa using hqb),
          List.find?_cons_of_neg _ (by simpa using hqb)]
        exact ih

theorem payReferralChain_deducted (u tid : Nat) (g : ℚ) (env : Env) :
    ∀ (chain : List (Nat × Profile)) (db : DB) (u' : Nat) (e' : Env),
      deductedIn ((payReferralChain u tid g env db chain).1).gas_fee_balances u' e' =
        deductedIn db.gas_fee_balances u' e' := by
  intro chain
  induction chain with
  | nil => intro db u' e'; rfl
  | cons e rest ih =>
    intro db u' e'
    obtain ⟨level, prof⟩ := e
    simp only [payReferralChain]
    by_cases h : g * rateOf level ≤ 0
    · rw [if_pos h]; exact ih db u' e'
    · rw [if_neg h]
      rw [ih]
      simp only [updateGasBalance]
      rw [deductedIn_update_deposit]
      exact deductedIn_ensure _ _ _ _ _

/-! ### processProfitSharing lemmas -/

theorem chain_comm_pos (profiles : List Profile) (u : Nat) (g : ℚ) (hg : 0 < g) :
    ∀ e ∈ profileChain profiles u, 0 < g * rateOf e.1 := by
  intro e he
  have h := profileChain_levels profiles u e he
  exact mul_pos hg (rateOf_pos e.1 h.1 h.2)

theorem psp_nonpos (db : DB) (u tid : Nat) (g : ℚ) (env : Env) (hg : g ≤ 0) :
    processProfitSharing db u tid g env = db := by
  unfold processProfitSharing
  rw [if_pos hg]

theorem psp_trades (db : DB) (u tid : Nat) (g : ℚ) (env : Env) :
    (processProfitSharing db u tid g env).trades = db.trades := by
  unfold processProfitSharing
  split
  · rfl
  · simp only [payReferralChain_trades, ensureGasBalance_trades, updateGasBalance]

theorem psp_positions (db : DB) (u tid : Nat) (g : ℚ) (env : Env) :
    (processProfitSharing db u tid g env).positions = db.positions := by
  unfold processProfitSharing
  split
  · rfl
  · simp only [payReferralChain_positions, ensureGasBalance_positions, updateGasBalance]

theorem psp_profiles (db : DB) (u tid : Nat) (g : ℚ) (env : Env) :
    (processProfitSharing db u tid g env).profiles = db.profiles := by
  unfold processProfitSharing
  split
  · rfl
  · simp only [payReferralChain_profiles, ensureGasBalance_profiles, updateGasBalance]

theorem psp_next_id (db : DB) (u tid : Nat) (g : ℚ) (env : Env) :
    db.next_id ≤ (processProfitSharing db u tid g env).next_id := by
  unfold processProfitSharing
  split
  · exact Nat.le_refl _
  · refine le_trans ?_ (Nat.le_succ _)
    refine le_trans ?_ (payReferralChain_next_id _ _ _ _ _ _)
    refine le_trans ?_ (Nat.le_succ _)
    simp only [updateGasBalance]
    refine le_trans ?_ (ensureGasBalance_next_id _ _ _)
    exact Nat.le_succ _

theorem psp_settlements (db : DB) (u tid : Nat) (g : ℚ) (env : Env) (hg : 0 < g) :
    (processProfitSharing db u tid g env).profit_settlements =
      db.profit_settlements ++
        [{ id := db.next_id, user_id := u, trade_id := tid, gross_profit := g
           service_fee_rate := SERVICE_FEE_RATE
           service_fee_amount := g * SERVICE_FEE_RATE
           net_profit := g - g * SERVICE_FEE_RATE }] := by
  unfold processProfitSharing
  rw [if_neg (not_le.mpr hg)]
  simp only [payReferralChain_settlements, ensureGasBalance_settlements, updateGasBalance]

theorem psp_settlement_ids (db : DB) (u tid : Nat) (g : ℚ) (env : Env) (hg : 0 < g) :
    settlementTradeIds (processProfitSharing db u tid g env) =
      settlementTradeIds db ++ [tid] := by
  unfold settlementTradeIds
  rw [psp_settlements db u tid g env hg]
  simp

theorem psp_txs_proj (db : DB) (u tid : Nat) (g : ℚ) (env : Env) (hg : 0 < g) :
    (processProfitSharing db u tid g env).gas_fee_transactions.map
        (fun t => (t.user_id, t.amount, t.transaction_type)) =
      db.gas_fee_transactions.map (fun t => (t.user_id, t.amount, t.transaction_type)) ++
        (u, -(g * SERVICE_FEE_RATE), "service_fee") ::
          (getReferralChain db u).map
            (fun e => (e.2.user_id, g * rateOf e.1, "referral_commission")) := by
  unfold processProfitSharing
  rw [if_neg (not_le.mpr hg)]
  simp only [getReferralChain, updateGasBalance, ensureGasBalance_profiles,
    ensureGasBalance_txs]
  rw [payReferralChain_txs u tid g env _ _ (chain_comm_pos db.profiles u g hg)]
  simp [ensureGasBalance_txs, updateGasBalance]

theorem psp_comm_proj (db : DB) (u tid : Nat) (g : ℚ) (env : Env) (hg : 0 < g) :
    (processProfitSharing db u tid g env).referral_commissions.map commProj =
      db.referral_commissions.map commProj ++
        (getReferralChain db u).map (fun e => (e.2.user_id, tid, e.1, g * rateOf e.1)) := by
  unfold processProfitSharing
  rw [if_neg (not_le.mpr hg)]
  simp only [getReferralChain, updateGasBalance, ensureGasBalance_profiles]
  rw [payReferralChain_commissions u tid g env _ _ (chain_comm_pos db.profiles u g hg)]
  simp [ensureGasBalance_commissions, updateGasBalance]

theorem psp_earn_proj (db : DB) (u tid : Nat) (g : ℚ) (env : Env) (hg : 0 < g) :
    (processProfitSharing db u tid g env).admin_earnings.map earnProj =
      db.admin_earnings.map earnProj ++
        [(tid, g * SERVICE_FEE_RATE,
          ((getReferralChain db u).map (fun e => g * rateOf e.1)).sum,
          g * SERVICE_FEE_RATE - ((getReferralChain db u).map (fun e => g * rateOf e.1)).sum)] := by
  unfold processProfitSharing
  rw [if_neg (not_le.mpr hg)]
  simp only [getReferralChain, updateGasBalance, ensureGasBalance_profiles]
  rw [payReferralChain_total u tid g env _ _ (chain_comm_pos db.profiles u g hg)]
  simp only [payReferralChain_earnings, ensureGasBalance_earnings, updateGasBalance]
  simp [earnProj]

theorem psp_deducted (db : DB) (u tid : Nat) (g : ℚ) (env : Env) (hg : 0 < g) :
    gasDeductedOf (processProfitSharing db u tid g env) u env =
      gasDeductedOf db u env + g * SERVICE_FEE_RATE := by
  unfold processProfitSharing gasDeductedOf
  rw [if_neg (not_le.mpr hg)]
  simp only [payReferralChain_deducted, updateGasBalance]
  rw [deductedIn_update_add u env (g * SERVICE_FEE_RATE) _ _ (ensure_any _ _ _)]
  rw [deductedIn_ensure]

/-! ### Well-formedness preservation -/

theorem WF_of_same (db1 db2 : DB)
    (hs : db2.profit_settlements = db1.profit_settlements)
    (ht : db2.trades = db1.trades) (hn : db2.next_id = db1.next_id) :
    WF db1 → WF db2 := by
  intro h
  obtain ⟨h1, h2, h3⟩ := h
  refine ⟨?_, ?_, ?_⟩
  · unfold settlementTradeIds
    rw [hs]
    exact h1
  · unfold settlementTradeIds
    rw [hs, hn]
    exact h2
  · rw [ht, hn]
    exact h3

theorem WF_settle_fresh (db : DB) (u : Nat) (g : ℚ) (env : Env) (t : Trade)
    (htid : t.id = db.next_id) (h : WF db) :
    WF (processProfitSharing
          { db with next_id := db.next_id + 1, trades := db.trades ++ [t] }
          u db.next_id g env) := by
  obtain ⟨h1, h2, h3⟩ := h
  by_cases hg : g ≤ 0
  · rw [psp_nonpos _ _ _ _ _ hg]
    refine ⟨h1, ?_, ?_⟩
    · intro i hi
      exact lt_trans (h2 i hi) (Nat.lt_succ_self _)
    · intro tr htr
      simp only [List.mem_append, List.mem_singleton] at htr
      rcases htr with htr | rfl
      · exact lt_trans (h3 tr htr) (Nat.lt_succ_self _)
      · rw [htid]; exact Nat.lt_succ_self _
  · have hg' : 0 < g := not_le.mp hg
    have hids := psp_settlement_ids
      { db with next_id := db.next_id + 1, trades := db.trades ++ [t] }
      u db.next_id g env hg'
    have hnid := psp_next_id
      { db with next_id := db.next_id + 1, trades := db.trades ++ [t] }
      u db.next_id g env
    have htr := psp_trades
      { db with next_id := db.next_id + 1, trades := db.trades ++ [t] }
      u db.next_id g env
    refine ⟨?_, ?_, ?_⟩
    · rw [hids]
      rw [List.nodup_append]
      refine ⟨h1, List.nodup_singleton _, ?_⟩
      intro a ha hb
      simp only [List.mem_singleton] at hb
      subst hb
      exact absurd (h2 _ ha) (lt_irrefl _)
    · intro i hi
      rw [hids] at hi
      simp only [List.mem_append, List.mem_singleton] at hi
      have hn : db.next_id + 1 ≤ (processProfitSharing
          { db with next_id := db.next_id + 1, trades := db.trades ++ [t] }
          u db.next_id g env).next_id := hnid
      rcases hi with hi | rfl
      · exact lt_of_lt_of_le (lt_trans (h2 i hi) (Nat.lt_succ_self _)) hn
      · exact lt_of_lt_of_le (Nat.lt_succ_self _) hn
    · intro tr htrm
      rw [htr] at htrm
      simp only [List.mem_append, List.mem_singleton] at htrm
      have hn : db.next_id + 1 ≤ (processProfitSharing
          { db with next_id := db.next_id + 1, trades := db.trades ++ [t] }
          u db.next_id g env).next_id := hnid
      rcases htrm with htrm | rfl
      · exact lt_of_lt_of_le (lt_trans (h3 tr htrm) (Nat.lt_succ_self _)) hn
      · rw [htid]
        exact lt_of_lt_of_le (Nat.lt_succ_self _) hn

theorem priceRefresh_settlements (db : DB) (pos : Position) (ex : ExchangePos) :
    (priceRefresh db pos ex).profit_settlements = db.profit_settlements := by
  unfold priceRefresh; split <;> rfl

theorem priceRefresh_trades (db : DB) (pos : Position) (ex : ExchangePos) :
    (priceRefresh db pos ex).trades = db.trades := by
  unfold priceRefresh; split <;> rfl

theorem priceRefresh_next_id (db : DB) (pos : Position) (ex : ExchangePos) :
    (priceRefresh db pos ex).next_id = db.next_id := by
  unfold priceRefresh; split <;> rfl

theorem priceRefresh_WF (db : DB) (pos : Position) (ex : ExchangePos) (h : WF db) :
    WF (priceRefresh db pos ex) :=
  WF_of_same db _ (priceRefresh_settlements db pos ex) (priceRefresh_trades db pos ex)
    (priceRefresh_next_id db pos ex) h

theorem closeAndSettle_WF (dbc : DB) (pos : Position) (ex : ExchangePos) (now : Nat)
    (h : WF dbc) : WF (closeAndSettle dbc pos ex now) := by
  unfold closeAndSettle
  exact WF_settle_fresh dbc pos.user_id ex.unrealizedPnl pos.environment
    (closingTradeOf dbc.next_id pos ex now) rfl h

theorem reconcile_WF (venue : Nat → ExchangePos) (now : Nat) (db : DB) (pos : Position)
    (h : WF db) : WF (reconcilePosition venue now db pos) := by
  simp only [reconcilePosition]
  have hp : WF (priceRefresh db pos (venue pos.id)) := priceRefresh_WF db pos _ h
  split
  · split
    · exact closeAndSettle_WF _ _ _ _ (WF_of_same (priceRefresh db pos (venue pos.id)) _
        rfl rfl rfl hp)
    · exact hp
  · exact hp

theorem foldl_reconcile_WF (venue : Nat → ExchangePos) (now : Nat) :
    ∀ (ps : List Position) (db : DB), WF db →
      WF (ps.foldl (reconcilePosition venue now) db) := by
  intro ps
  induction ps with
  | nil => intro db h; exact h
  | cons p ps ih =>
    intro db h
    exact ih _ (reconcile_WF venue now db p h)

theorem backfillGo_aux :
    ∀ (ts : List Trade) (settled : List Nat) (db : DB),
      (backfillGo ts settled db).trades = db.trades ∧
      db.next_id ≤ (backfillGo ts settled db).next_id ∧
      ((settlementTradeIds db).Nodup →
        (∀ i ∈ settlementTradeIds db, i ∈ settled) →
        (∀ i ∈ settlementTradeIds db, i < db.next_id) →
        (∀ t ∈ ts, t.id < db.next_id) →
        (settlementTradeIds (backfillGo ts settled db)).Nodup ∧
          (∀ i ∈ settlementTradeIds (backfillGo ts settled db),
            i < (backfillGo ts settled db).next_id)) := by
  intro ts
  induction ts with
  | nil =>
    intro settled db
    exact ⟨rfl, Nat.le_refl _, fun h1 _ h3 _ => ⟨h1, h3⟩⟩
  | cons t ts ih =>
    intro settled db
    by_cases hmem : t.id ∈ settled
    · simp only [backfillGo, if_pos hmem]
      obtain ⟨ha, hb, hc⟩ := ih settled db
      exact ⟨ha, hb, fun h1 h2 h3 h4 => hc h1 h2 h3 (fun t' ht' => h4 t' (List.mem_cons_of_mem _ ht'))⟩
    · simp only [backfillGo, if_neg hmem]
      by_cases hg : t.realized_pnl.getD 0 ≤ 0
      · rw [psp_nonpos _ _ _ _ _ hg]
        obtain ⟨ha, hb, hc⟩ := ih (t.id :: settled) db
        refine ⟨ha, hb, fun h1 h2 h3 h4 => ?_⟩
        exact hc h1 (fun i hi => List.mem_cons_of_mem _ (h2 i hi)) h3
          (fun t' ht' => h4 t' (List.mem_cons_of_mem _ ht'))
      · have hg' : 0 < t.realized_pnl.getD 0 := not_le.mp hg
        set db' := processProfitSharing db t.user_id t.id (t.realized_pnl.getD 0)
          t.environment with hdb'
        obtain ⟨ha, hb, hc⟩ := ih (t.id :: settled) db'
        have hids : settlementTradeIds db' = settlementTradeIds db ++ [t.id] :=
          psp_settlement_ids db t.user_id t.id (t.realized_pnl.getD 0) t.environment hg'
        have htr : db'.trades = db.trades :=
          psp_trades db t.user_id t.id (t.realized_pnl.getD 0) t.environment
        have hni : db.next_id ≤ db'.next_id :=
          psp_next_id db t.user_id t.id (t.realized_pnl.getD 0) t.environment
        refine ⟨by rw [ha, htr], le_trans hni hb, fun h1 h2 h3 h4 => ?_⟩
        have htid : t.id < db.next_id := h4 t (List.mem_cons_self _ _)
        refine hc ?_ ?_ ?_ ?_
        · rw [hids, List.nodup_append]
          refine ⟨h1, List.nodup_singleton _, ?_⟩
          intro a haa hab
          simp only [List.mem_singleton] at hab
          subst hab
          exact hmem (h2 _ haa)
        · intro i hi
          rw [hids] at hi
          simp only [List.mem_append, List.mem_singleton] at hi
          rcases hi with hi | rfl
          · exact List.mem_cons_of_mem _ (h2 i hi)
          · exact List.mem_cons_self _ _
        · intro i hi
          rw [hids] at hi
          simp only [List.mem_append, List.mem_singleton] at hi
          rcases hi with hi | rfl
          · exact lt_of_lt_of_le (h3 i hi) hni
          · exact lt_of_lt_of_le htid hni
        · intro t' ht'
          exact lt_of_lt_of_le (h4 t' (List.mem_cons_of_mem _ ht')) hni

theorem backfill_WF (db : DB) (h : WF db) : WF (backfill db) := by
  obtain ⟨h1, h2, h3⟩ := h
  unfold backfill
  obtain ⟨ha, hb, hc⟩ := backfillGo_aux (profitableFilledTrades db) (settlementTradeIds db) db
  have hts : ∀ t ∈ profitableFilledTrades db, t.id < db.next_id := by
    intro t ht
    unfold profitableFilledTrades at ht
    exact h3 t (List.mem_of_mem_filter ht)
  obtain ⟨hn, hlt⟩ := hc h1 (fun i hi => hi) h2 hts
  refine ⟨hn, hlt, ?_⟩
  intro t ht
  rw [ha] at ht
  exact lt_of_lt_of_le (h3 t ht) hb

theorem monitorTick_WF (hasKeys : Position → Bool) (venue : Nat → ExchangePos)
    (now : Nat) (db : DB) (h : WF db) : WF (monitorTick hasKeys venue now db) := by
  unfold monitorTick
  exact foldl_reconcile_WF venue now _ _ (backfill_WF db h)

theorem runTicks_WF (ticks : List TickEnv) :
    ∀ (db : DB), WF db → WF (runTicks db ticks) := by
  induction ticks with
  | nil => intro db h; exact h
  | cons e es ih =>
    intro db h
    exact ih _ (monitorTick_WF e.hasKeys e.venue e.now db h)

theorem backfillGo_noop :
    ∀ (ts : List Trade) (settled : List Nat) (db : DB),
      (∀ t ∈ ts, t.id ∈ settled) → backfillGo ts settled db = db := by
  intro ts
  induction ts with
  | nil => intro settled db _; rfl
  | cons t ts ih =>
    intro settled db hall
    have hmem : t.id ∈ settled := hall t (List.mem_cons_self _ _)
    simp only [backfillGo, if_pos hmem]
    exact ih settled db (fun t' ht' => hall t' (List.mem_cons_of_mem _ ht'))

theorem backfill_noop (db : DB)
    (hall : ∀ t ∈ profitableFilledTrades db, t.id ∈ settlementTradeIds db) :
    backfill db = db :=
  backfillGo_noop _ _ _ hall

/-! ### Credential-group key construction and parsing (C4) -/

/-- The reconciler's credential-group key
`` `${pos.user_id}-${pos.exchange}-${pos.environment}` ``
(`positionMonitor.ts` line 403). -/
def groupKeyOf (userId exchange environment : String) : String :=
  userId ++ "-" ++ exchange ++ "-" ++ environment

/-- JS `String.prototype.split` with a one-character separator, over the
character list. -/
def splitChars (sep : Char) : List Char → List (List Char)
  | [] => [[]]
  | c :: cs =>
    if c == sep then [] :: splitChars sep cs
    else
      match splitChars sep cs with
      | [] => [[c]]
      | h :: t => (c :: h) :: t

/-- The split of the group key back into parts:
`key.split('-')` (`positionMonitor.ts` line 419). -/
def keyParts (key : String) : List String :=
  (splitChars '-' key.toList).map (fun cs => String.mk cs)

/-- `const [userId, ...] = key.split('-')`: the first destructured part. -/
def parsedUserId (key : String) : String := (keyParts key).headD ""

/-- `const [, exchange, ...] = key.split('-')`: the second destructured part. -/
def parsedExchange (key : String) : String := ((keyParts key).drop 1).headD ""

/-- `const [, , environment] = key.split('-')`: the third destructured part. -/
def parsedEnvironment (key : String) : String := ((keyParts key).drop 2).headD ""

theorem backfillGo_positions :
    ∀ (ts : List Trade) (settled : List Nat) (db : DB),
      (backfillGo ts settled db).positions = db.positions := by
  intro ts
  induction ts with
  | nil => intro settled db; rfl
  | cons t ts ih =>
    intro settled db
    by_cases hmem : t.id ∈ settled
    · simp only [backfillGo, if_pos hmem]
      exact ih settled db
    · simp only [backfillGo, if_neg hmem]
      rw [ih, psp_positions]

/-! ### The precision-retry ladder of the entry order (C5) -/

/-- Bool test: the pattern list is a prefix of the character list. -/
def listStartsWith : List Char → List Char → Bool
  | [], _ => true
  | _ :: _, [] => false
  | p :: ps, c :: cs => p == c && listStartsWith ps cs

/-- Bool test: the pattern list occurs contiguously in the character list. -/
def listContainsSub (pat : List Char) : List Char → Bool
  | [] => listStartsWith pat []
  | c :: cs => listStartsWith pat (c :: cs) || listContainsSub pat cs

/-- Case-insensitive substring test (the patterns below are lowercase, so
lowercasing the message reproduces the `/.../i` regex). -/
def containsPattern (message pat : String) : Bool :=
  listContainsSub pat.toList (message.toList.map Char.toLower)

/-- `isPrecisionError` (`positionMonitor.ts` lines 544-547):
`/precision|step|lot|qty|quantity|filter failure/i.test(message)`, false for
a missing message. -/
def isPrecisionError : Option String → Bool
  | none => false
  | some m =>
    ["precision", "step", "lot", "qty", "quantity", "filter failure"].any
      (fun pat => containsPattern m pat)

/-- `formatQty` (`positionMonitor.ts` lines 549-554): floor the value at
`decimals` decimal places; `null` when the floored value is not positive.
(The trailing-zero strip changes only the string form, not the value.) -/
def formatQty (value : ℚ) (decimals : Nat) : Option ℚ :=
  let factor : ℚ := 10 ^ decimals
  let floored : ℚ := (⌊value * factor⌋ : ℚ) / factor
  if floored ≤ 0 then none else some floored

/-- A venue order response: the non-zero-code check already folded into
`success`, with the venue error text. -/
structure OrderOutcome where
  success : Bool
  error : Option String
deriving DecidableEq, Repr

/-- The initial `orderResult` value before the retry loop
(`positionMonitor.ts` line 1300, with `executionError` null on this path). -/
def initialOrderResult : OrderOutcome := ⟨false, some "Failed to set leverage"⟩

/-- The observable state of the retry ladder: final order result, the
decimal precision that succeeded (`orderQtyDecimals`), the decimals at
which an order was actually submitted, and the `lastError` variable. -/
structure RetryState where
  result : OrderOutcome
  decimals : Option Nat
  attempted : List Nat
  lastError : Option String
deriving DecidableEq, Repr

/-- The body of the retry loop (`positionMonitor.ts` lines 1303-1333): for
each precision in order, skip it when `formatQty` returns null, otherwise
submit (the oracle, keyed by decimals); stop on success, record the error
and stop on a non-precision failure, otherwise record the error and
continue coarser. -/
def retryGo (oracle : Nat → OrderOutcome) (quantity : ℚ) :
    List Nat → Option String → RetryState
  | [], lastErr => ⟨initialOrderResult, none, [], lastErr⟩
  | d :: ds, lastErr =>
    match formatQty quantity d with
    | none => retryGo oracle quantity ds lastErr
    | some _ =>
      let r := oracle d
      if r.success then ⟨r, some d, [d], lastErr⟩
      else if isPrecisionError r.error then
        let st := retryGo oracle quantity ds r.error
        ⟨st.result, st.decimals, d :: st.attempted, st.lastError⟩
      else ⟨r, none, [d], r.error⟩

/-- The full precision-retry ladder (`positionMonitor.ts` lines 1302-1336):
`attempts = [3, 2, 1, 0]`, and after the loop
`if (!orderResult.success && lastError) orderResult = {success: false,
error: lastError}`. -/
def placeOrderWithRetry (oracle : Nat → OrderOutcome) (quantity : ℚ) : RetryState :=
  let st := retryGo oracle quantity [3, 2, 1, 0] none
  if st.result.success = false then
    match st.lastError with
    | some e => ⟨⟨false, some e⟩, st.decimals, st.attempted, st.lastError⟩
    | none => st
  else st

/-! ### The strategy-level risk gate of the auto-signal generator (C7) -/

/-- Realized-PnL sum over the strategy owner's trades created since UTC
midnight (`positionMonitor.ts` lines 1064-1066): all of the user's trades
of the day, `Number(t.realized_pnl || 0)` summed. -/
def dailyPnl (trades : List Trade) (userId : Nat) (dayStart : Nat) : ℚ :=
  ((trades.filter (fun t => t.user_id == userId && decide (dayStart ≤ t.created_at))).map
    (fun t => t.realized_pnl.getD 0)).sum

/-- Count of the owner's auto-strategy trades created since UTC midnight
(`positionMonitor.ts` lines 1052-1057). -/
def dailyTradeCount (trades : List Trade) (userId : Nat) (dayStart : Nat) : Nat :=
  (trades.filter (fun t =>
    t.user_id == userId && t.triggered_by == some "auto_strategy" &&
      decide (dayStart ≤ t.created_at))).length

/-- Outcome of the strategy-level admission checks. -/
inductive GateResult where
  | proceed
  | sessionSkip
  | maxTradesSkip
  | dailyLossSkip
deriving DecidableEq, Repr

/-- The strategy-level risk checks that precede signal generation, in
source order (`positionMonitor.ts`): trading-session window (line 1045),
max trades per day (lines 1058-1062), max daily loss (lines 1064-1071).
Each check `continue`s — skipping the whole strategy including its
per-pair signal loop. The checks that follow the daily-loss check
(consecutive-loss streak, signal interval, credentials, bot status, gas
balance, open-position cap) and the per-pair loop are abstracted as the
continuation `rest`, since they run only when the first three checks
pass. -/
def strategyGate (sessionOk : Bool) (trades : List Trade) (userId dayStart : Nat)
    (maxTradesPerDay maxDailyLoss : ℚ) (rest : GateResult) : GateResult :=
  if sessionOk = false then GateResult.sessionSkip
  else if maxTradesPerDay > 0 ∧ (dailyTradeCount trades userId dayStart : ℚ) ≥ maxTradesPerDay
    then GateResult.maxTradesSkip
  else if maxDailyLoss > 0 ∧ dailyPnl trades userId dayStart ≤ -maxDailyLoss
    then GateResult.dailyLossSkip
  else rest

/-- A strategy's per-pair results for a tick: produced only when the gate
proceeds (`continue` skips the whole strategy body). -/
def gatedSignals {α : Type} (gate : GateResult) (pairResults : List α) : List α :=
  match gate with
  | GateResult.proceed => pairResults
  | _ => []

/-! ### RSI threshold handling of the signal analyzer (C8) -/

/-- The RSI-threshold fields of `StrategyIndicators` (`signalAnalysis.ts`);
the EMA/MACD/volume fields do not participate in the RSI classification. -/
structure StrategyIndicators where
  rsi_overbought : ℚ
  rsi_oversold : ℚ
deriving DecidableEq, Repr

/-- `rsiOverbought = indicators.rsi_overbought >= 70 ? 75 :
indicators.rsi_overbought` (`signalAnalysis.ts` line 249). -/
def rsiOverboughtEff (rsi_overbought : ℚ) : ℚ :=
  if rsi_overbought ≥ 70 then 75 else rsi_overbought

/-- `rsiOversold = indicators.rsi_oversold <= 30 ? 25 :
indicators.rsi_oversold` (`signalAnalysis.ts` line 250). -/
def rsiOversoldEff (rsi_oversold : ℚ) : ℚ :=
  if rsi_oversold ≤ 30 then 25 else rsi_oversold

/-- RSI classification outcome. -/
inductive RsiVerdict where
  | oversold
  | overbought
  | neutral
deriving DecidableEq, Repr

/-- The RSI classification of `analyzeSignal` (`signalAnalysis.ts` lines
252-257): oversold below the effective oversold threshold, else overbought
above the effective overbought threshold, else neutral. -/
def classifyRSI (indicators : StrategyIndicators) (currentRSI : ℚ) : RsiVerdict :=
  if currentRSI < rsiOversoldEff indicators.rsi_oversold then RsiVerdict.oversold
  else if currentRSI > rsiOverboughtEff indicators.rsi_overbought then RsiVerdict.overbought
  else RsiVerdict.neutral

/-! ### Reconciler characterization lemmas -/

theorem updateFirstPos_pairs (pid : Nat) (cp : Option ℚ) (up : ℚ) :
    ∀ (l : List Position),
      (updateFirstPos pid
          (fun p => { p with current_price := cp, unrealized_pnl := up }) l).map
        (fun p => (p.id, p.is_open)) = l.map (fun p => (p.id, p.is_open)) := by
  intro l
  induction l with
  | nil => rfl
  | cons p ps ih =>
    by_cases hb : p.id == pid
    · simp only [updateFirstPos, if_pos hb, List.map_cons]
    · simp only [updateFirstPos, if_neg hb, List.map_cons, ih]

theorem updateFirstPos_any (pid : Nat) (cp : Option ℚ) (up : ℚ) (q : Nat) :
    ∀ (l : List Position),
      (updateFirstPos pid
          (fun p => { p with current_price := cp, unrealized_pnl := up }) l).any
        (fun p => p.id == q) = l.any (fun p => p.id == q) := by
  intro l
  induction l with
  | nil => rfl
  | cons p ps ih =>
    by_cases hb : p.id == pid
    · simp only [updateFirstPos, if_pos hb, List.any_cons]
    · simp only [updateFirstPos, if_neg hb, List.any_cons, ih]

theorem updateFirstPos_forall2 (pid : Nat) (cp : Option ℚ) (up : ℚ) :
    ∀ (l : List Position),
      List.Forall₂
        (fun p q => q = { p with current_price := q.current_price, unrealized_pnl := q.unrealized_pnl })
        l (updateFirstPos pid
            (fun p => { p with current_price := cp, unrealized_pnl := up }) l) := by
  intro l
  induction l with
  | nil => exact List.Forall₂.nil
  | cons p ps ih =>
    by_cases hb : p.id == pid
    · simp only [updateFirstPos, if_pos hb]
      refine List.Forall₂.cons rfl ?_
      rw [List.forall₂_same]
      intro x _
      rfl
    · simp only [updateFirstPos, if_neg hb]
      exact List.Forall₂.cons rfl ih

theorem find?_updateFirstPos_close (pid : Nat) (up : ℚ) :
    ∀ (l : List Position), l.any (fun p => p.id == pid) = true →
      ((updateFirstPos pid
          (fun p => { p with is_open := false, unrealized_pnl := up }) l).find?
        (fun p => p.id == pid)).map (fun p => p.is_open) = some false := by
  intro l
  induction l with
  | nil => intro h; simp at h
  | cons p ps ih =>
    intro hany
    by_cases hb : p.id == pid
    · simp only [updateFirstPos, if_pos hb]
      rw [List.find?_cons_of_pos _ (by exact hb)]
      rfl
    · simp only [updateFirstPos, if_neg hb]
      rw [List.find?_cons_of_neg _ (by simpa using hb)]
      refine ih ?_
      simp only [List.any_cons, hb, Bool.false_or] at hany
      exact hany

theorem priceRefresh_balances (db : DB) (pos : Position) (ex : ExchangePos) :
    (priceRefresh db pos ex).gas_fee_balances = db.gas_fee_balances := by
  unfold priceRefresh; split <;> rfl

theorem priceRefresh_txs (db : DB) (pos : Position) (ex : ExchangePos) :
    (priceRefresh db pos ex).gas_fee_transactions = db.gas_fee_transactions := by
  unfold priceRefresh; split <;> rfl

theorem priceRefresh_commissions (db : DB) (pos : Position) (ex : ExchangePos) :
    (priceRefresh db pos ex).referral_commissions = db.referral_commissions := by
  unfold priceRefresh; split <;> rfl

theorem priceRefresh_earnings (db : DB) (pos : Position) (ex : ExchangePos) :
    (priceRefresh db pos ex).admin_earnings = db.admin_earnings := by
  unfold priceRefresh; split <;> rfl

theorem priceRefresh_pairs (db : DB) (pos : Position) (ex : ExchangePos) :
    (priceRefresh db pos ex).positions.map (fun p => (p.id, p.is_open)) =
      db.positions.map (fun p => (p.id, p.is_open)) := by
  unfold priceRefresh
  split
  · exact updateFirstPos_pairs pos.id _ _ db.positions
  · rfl

theorem priceRefresh_any (db : DB) (pos : Position) (ex : ExchangePos) (q : Nat) :
    (priceRefresh db pos ex).positions.any (fun p => p.id == q) =
      db.positions.any (fun p => p.id == q) := by
  unfold priceRefresh
  split
  · exact updateFirstPos_any pos.id _ _ q db.positions
  · rfl

theorem priceRefresh_forall2 (db : DB) (pos : Position) (ex : ExchangePos) :
    List.Forall₂
      (fun p q => q = { p with current_price := q.current_price, unrealized_pnl := q.unrealized_pnl })
      db.positions (priceRefresh db pos ex).positions := by
  unfold priceRefresh
  split
  · exact updateFirstPos_forall2 pos.id _ _ db.positions
  · rw [List.forall₂_same]
    intro x _
    rfl

/-! ### RSI computation (C9) -/

/-- Successive price deltas `prices[i] − prices[i−1]` (`indicators.ts`
lines 164-168). -/
def priceDeltas : List ℚ → List ℚ
  | a :: b :: rest => (b - a) :: priceDeltas (b :: rest)
  | _ => []

/-- The gains series: `change > 0 ? change : 0`. -/
def gainsOf (prices : List ℚ) : List ℚ :=
  (priceDeltas prices).map (fun c => if c > 0 then c else 0)

/-- The losses series: `change < 0 ? Math.abs(change) : 0`. -/
def lossesOf (prices : List ℚ) : List ℚ :=
  (priceDeltas prices).map (fun c => if c < 0 then -c else 0)

/-- The Wilder smoothing loop of `calculateRSI` (`indicators.ts` lines
173-179), one output per remaining (gain, loss) pair:
`rs = avgLoss === 0 ? 100 : avgGain / avgLoss` and the emitted value is
`100 − 100 / (1 + rs)`. -/
def rsiGo (period : Nat) : ℚ → ℚ → List (ℚ × ℚ) → List ℚ
  | _, _, [] => []
  | avgGain, avgLoss, gl :: rest =>
    let ag := (avgGain * ((period : ℚ) - 1) + gl.1) / (period : ℚ)
    let al := (avgLoss * ((period : ℚ) - 1) + gl.2) / (period : ℚ)
    let rs := if al = 0 then (100 : ℚ) else ag / al
    (100 - 100 / (1 + rs)) :: rsiGo period ag al rest

/-- The smoothed average-loss value used at each output index of the same
loop. -/
def rsiLossTrace (period : Nat) : ℚ → ℚ → List (ℚ × ℚ) → List ℚ
  | _, _, [] => []
  | avgGain, avgLoss, gl :: rest =>
    let ag := (avgGain * ((period : ℚ) - 1) + gl.1) / (period : ℚ)
    let al := (avgLoss * ((period : ℚ) - 1) + gl.2) / (period : ℚ)
    al :: rsiLossTrace period ag al rest

/-- `calculateRSI` (`indicators.ts` lines 155-182): empty below
`period + 1` prices; otherwise seed the averages from the first `period`
gains/losses and run the Wilder loop over the remaining pairs. -/
def calculateRSI (prices : List ℚ) (period : Nat) : List ℚ :=
  if prices.length < period + 1 then []
  else
    rsiGo period (((gainsOf prices).take period).sum / (period : ℚ))
      (((lossesOf prices).take period).sum / (period : ℚ))
      (((gainsOf prices).zip (lossesOf prices)).drop period)

/-- The smoothed average-loss series aligned index-by-index with
`calculateRSI`'s output. -/
def rsiAvgLosses (prices : List ℚ) (period : Nat) : List ℚ :=
  if prices.length < period + 1 then []
  else
    rsiLossTrace period (((gainsOf prices).take period).sum / (period : ℚ))
      (((lossesOf prices).take period).sum / (period : ℚ))
      (((gainsOf prices).zip (lossesOf prices)).drop period)

theorem rsiGo_loss_zero (period : Nat) :
    ∀ (pairs : List (ℚ × ℚ)) (ag al : ℚ) (i : Nat)
      (h1 : i < (rsiLossTrace period ag al pairs).length)
      (h2 : i < (rsiGo period ag al pairs).length),
      (rsiLossTrace period ag al pairs).get ⟨i, h1⟩ = 0 →
      (rsiGo period ag al pairs).get ⟨i, h2⟩ = 100 - 100 / 101 := by
  intro pairs
  induction pairs with
  | nil =>
    intro ag al i h1 h2 hz
    simp [rsiLossTrace] at h1
  | cons gl rest ih =>
    intro ag al i h1 h2 hz
    cases i with
    | zero =>
      simp only [rsiLossTrace, List.get] at hz
      simp only [rsiGo, List.get]
      rw [hz]
      norm_num
    | succ n =>
      simp only [rsiLossTrace, List.get] at hz
      simp only [rsiGo, List.get]
      exact ih _ _ n _ _ hz

theorem priceDeltas_pos_of_chain :
    ∀ (prices : List ℚ), List.Chain' (· < ·) prices →
      ∀ c ∈ priceDeltas prices, 0 < c := by
  intro prices
  induction prices with
  | nil => intro _ c hc; simp [priceDeltas] at hc
  | cons a rest ih =>
    cases rest with
    | nil => intro _ c hc; simp [priceDeltas] at hc
    | cons b rest2 =>
      intro hch c hc
      simp only [priceDeltas, List.mem_cons] at hc
      have hsplit := List.chain'_cons.mp hch
      rcases hc with rfl | hc
      · linarith [hsplit.1]
      · exact ih hsplit.2 c hc

theorem lossesOf_zero_of_chain (prices : List ℚ) (h : List.Chain' (· < ·) prices) :
    ∀ x ∈ lossesOf prices, x = 0 := by
  intro x hx
  unfold lossesOf at hx
  obtain ⟨c, hc, rfl⟩ := List.mem_map.mp hx
  have hpos := priceDeltas_pos_of_chain prices h c hc
  rw [if_neg (not_lt.mpr (le_of_lt hpos))]

theorem rsiGo_zero_loss_all (period : Nat) :
    ∀ (pairs : List (ℚ × ℚ)) (ag : ℚ), (∀ gl ∈ pairs, gl.2 = 0) →
      ∀ v ∈ rsiGo period ag 0 pairs, v = 100 - 100 / 101 := by
  intro pairs
  induction pairs with
  | nil => intro ag _ v hv; simp [rsiGo] at hv
  | cons gl rest ih =>
    intro ag hz v hv
    have hgl : gl.2 = 0 := hz gl (List.mem_cons_self _ _)
    have hal : ((0 : ℚ) * ((period : ℚ) - 1) + gl.2) / (period : ℚ) = 0 := by
      rw [hgl]; norm_num
    simp only [rsiGo, hal, List.mem_cons] at hv
    rcases hv with rfl | hv
    · norm_num
    · exact ih _ (fun e he => hz e (List.mem_cons_of_mem _ he)) v hv

theorem calculateRSI_loss_zero (prices : List ℚ) (period : Nat) :
    ∀ (i : Nat) (h1 : i < (rsiAvgLosses prices period).length)
      (h2 : i < (calculateRSI prices period).length),
      (rsiAvgLosses prices period).get ⟨i, h1⟩ = 0 →
      (calculateRSI prices period).get ⟨i, h2⟩ = 100 - 100 / 101 := by
  intro i h1 h2 hz
  by_cases hlen : prices.length < period + 1
  · exfalso
    have hnil : rsiAvgLosses prices period = [] := by
      unfold rsiAvgLosses; rw [if_pos hlen]
    rw [hnil] at h1
    simp at h1
  · have hceq : calculateRSI prices period =
        rsiGo period (((gainsOf prices).take period).sum / (period : ℚ))
          (((lossesOf prices).take period).sum / (period : ℚ))
          (((gainsOf prices).zip (lossesOf prices)).drop period) := by
      unfold calculateRSI; rw [if_neg hlen]
    have hleq : rsiAvgLosses prices period =
        rsiLossTrace period (((gainsOf prices).take period).sum / (period : ℚ))
          (((lossesOf prices).take period).sum / (period : ℚ))
          (((gainsOf prices).zip (lossesOf prices)).drop period) := by
      unfold rsiAvgLosses; rw [if_neg hlen]
    rw [List.get_of_eq hceq]
    rw [List.get_of_eq hleq] at hz
    exact rsiGo_loss_zero period _ _ _ i _ _ hz

theorem calculateRSI_increasing (prices : List ℚ) (period : Nat)
    (h : List.Chain' (· < ·) prices) :
    ∀ v ∈ calculateRSI prices period, v = 100 - 100 / 101 := by
  intro v hv
  unfold calculateRSI at hv
  split at hv
  · simp at hv
  · have hz : ((lossesOf prices).take period).sum = 0 := by
      apply List.sum_eq_zero
      intro x hx
      exact lossesOf_zero_of_chain prices h x (List.mem_of_mem_take hx)
    rw [hz, zero_div] at hv
    refine rsiGo_zero_loss_all period _ _ ?_ v hv
    intro gl hgl
    obtain ⟨g, l⟩ := gl
    have hmem := List.mem_of_mem_drop hgl
    exact lossesOf_zero_of_chain prices h l (List.of_mem_zip hmem).2

/-! ### Trade execution and partial protective-leg failure (C6) -/

/-- The entry order or one protective leg of an execution. -/
inductive Leg where
  | entry
  | stopLoss
  | takeProfit (i : Nat)
  | trailing
deriving DecidableEq, Repr

/-- A venue response for one leg: success flag, entry order id payload,
error text. -/
structure LegResult where
  success : Bool
  orderId : Option Nat
  error : Option String
deriving DecidableEq, Repr

/-- `executeTrade`'s result shape (`strategies.ts` line 399):
`{ success, orderId?, error? }`. -/
structure ExecResult where
  success : Bool
  orderId : Option Nat
  error : Option String
deriving DecidableEq, Repr

/-- A take-profit leg configuration. -/
structure TpLevel where
  enabled : Bool
  percent : ℚ
  closePercent : ℚ
deriving DecidableEq, Repr

/-- The strategy/alert fields `executeTrade` branches on
(Binance-futures branch). -/
structure ExecStrategy where
  price : ℚ
  quantity : ℚ
  tpLevels : List TpLevel
  use_trailing_stop : Bool
  trailing_stop_callback : ℚ
deriving DecidableEq, Repr

/-- `Math.floor(q * 1000) / 1000`. -/
def round3 (q : ℚ) : ℚ := (⌊q * 1000⌋ : ℚ) / 1000

/-- The take-profit sub-loop of `executeTrade` (`strategies.ts` lines
485-505): for each enabled level whose partial quantity is positive, place
the order; the first failure aborts with that leg's error
(`tpResult.error || 'Take profit failed'`). -/
def execTpLoop (oracle : Leg → LegResult) (roundedQty : ℚ) :
    Nat → List TpLevel → Option String
  | _, [] => none
  | i, tp :: rest =>
    if tp.enabled = false then execTpLoop oracle roundedQty (i + 1) rest
    else if round3 (roundedQty * (tp.closePercent / 100)) > 0 then
      if (oracle (Leg.takeProfit i)).success then execTpLoop oracle roundedQty (i + 1) rest
      else some ((oracle (Leg.takeProfit i)).error.getD "Take profit failed")
    else execTpLoop oracle roundedQty (i + 1) rest

/-- `executeTrade` (`strategies.ts` lines 394-533, Binance-futures branch),
with the venue responses abstracted as the oracle: quantity floored to 3
decimals (abort when not positive), leverage set best-effort (its response
is ignored), market entry order (abort on failure with its error), then —
when an alert price is known — stop-loss, enabled take-profit legs, and
optional trailing stop, each aborting the WHOLE execution with
`success: false` and that leg's error on failure. -/
def executeTrade (oracle : Leg → LegResult) (strategy : ExecStrategy) : ExecResult :=
  let roundedQty := round3 strategy.quantity
  if roundedQty ≤ 0 then ⟨false, none, some "Invalid position size calculated"⟩
  else
    let entry := oracle Leg.entry
    if entry.success = false then ⟨false, none, entry.error⟩
    else if strategy.price > 0 then
      let sl := oracle Leg.stopLoss
      if sl.success = false then ⟨false, none, some (sl.error.getD "Stop loss failed")⟩
      else
        match execTpLoop oracle roundedQty 0 strategy.tpLevels with
        | some e => ⟨false, none, some e⟩
        | none =>
          if strategy.use_trailing_stop = true ∧ strategy.trailing_stop_callback > 0 then
            let tr := oracle Leg.trailing
            if tr.success = false then
              ⟨false, none, some (tr.error.getD "Trailing stop failed")⟩
            else ⟨true, entry.orderId, none⟩
          else ⟨true, entry.orderId, none⟩
    else ⟨true, entry.orderId, none⟩

/-- A webhook audit row (the fields the recording paths write). -/
structure WebhookLogRow where
  strategy_id : Nat
  status : String
  error_message : Option String
deriving DecidableEq, Repr

/-- The execution-recording slice of the database. -/
structure ExecDB where
  trades : List Trade
  positions : List Position
  webhook_logs : List WebhookLogRow
  next_id : Nat
deriving DecidableEq, Repr

/-- The recording tail of the webhook route (`strategies.ts` lines
853-941): on `success && orderId`, push the Trade, the open Position, and
an `'executed'` log with `error_message: null`; otherwise push only a
`'failed'` log with `execResult.error || 'Unknown error'`. -/
def recordWebhookExecution (db : ExecDB) (userId strategyId : Nat) (symbol side : String)
    (price quantity : ℚ) (environment : Env) (exec : ExecResult) (now : Nat) : ExecDB :=
  if exec.success = true ∧ exec.orderId.isSome then
    { trades := db.trades ++
        [{ id := db.next_id, user_id := userId, symbol := symbol, side := side
           price := price, quantity := quantity, realized_pnl := none
           status := "filled", triggered_by := some "tradingview_webhook"
           environment := environment, created_at := now }]
      positions := db.positions ++
        [{ id := db.next_id + 1, user_id := userId, symbol := symbol
           side := if side == "buy" then PosSide.long else PosSide.short
           size := quantity, entry_price := price, current_price := none
           unrealized_pnl := 0, is_open := true, exchange := "binance"
           environment := environment }]
      webhook_logs := db.webhook_logs ++ [⟨strategyId, "executed", none⟩]
      next_id := db.next_id + 3 }
  else
    { db with
      next_id := db.next_id + 1
      webhook_logs := db.webhook_logs ++
        [⟨strategyId, "failed", some (exec.error.getD "Unknown error")⟩] }

/-- The take-profit part of the auto-signal protective-leg block
(`positionMonitor.ts` lines 1364-1392): failures are pushed onto
`tpSlErrors` and the loop continues. -/
def autoTpSlLoop (oracle : Leg → LegResult) (roundedQty : ℚ) (decimals : Nat) :
    Nat → List TpLevel → List String
  | _, [] => []
  | i, tp :: rest =>
    if tp.enabled = false then autoTpSlLoop oracle roundedQty decimals (i + 1) rest
    else
      match formatQty (round3 (roundedQty * (tp.closePercent / 100))) decimals with
      | none => autoTpSlLoop oracle roundedQty decimals (i + 1) rest
      | some _ =>
        if (oracle (Leg.takeProfit i)).success then
          autoTpSlLoop oracle roundedQty decimals (i + 1) rest
        else ((oracle (Leg.takeProfit i)).error.getD "TP failed") ::
          autoTpSlLoop oracle roundedQty decimals (i + 1) rest

/-- The protective-leg error accumulation of the auto-signal Binance branch
(`positionMonitor.ts` lines 1344-1424): with the entry filled and a
positive price, collect the stop-loss failure, the enabled take-profit
failures, and the trailing-stop failure into `tpSlErrors`. -/
def autoTpSlErrors (oracle : Leg → LegResult) (price roundedQty : ℚ) (decimals : Nat)
    (tpLevels : List TpLevel) (useTrailing : Bool) (callback : ℚ) : List String :=
  if price > 0 then
    (if (oracle Leg.stopLoss).success then []
     else [(oracle Leg.stopLoss).error.getD "Stop loss failed"]) ++
    autoTpSlLoop oracle roundedQty decimals 0 tpLevels ++
    (if useTrailing = true ∧ callback > 0 then
      (if (oracle Leg.trailing).success then []
       else [(oracle Leg.trailing).error.getD "Trailing stop failed"])
     else [])
  else []

/-- `tpSlErrors.join(' | ')`. -/
def joinErrors : List String → String
  | [] => ""
  | [e] => e
  | e :: rest => e ++ " | " ++ joinErrors rest

/-- `if (tpSlErrors.length > 0) executionError = tpSlErrors.join(' | ')`
(`positionMonitor.ts` lines 1422-1424). -/
def autoExecutionError (oracle : Leg → LegResult) (price roundedQty : ℚ) (decimals : Nat)
    (tpLevels : List TpLevel) (useTrailing : Bool) (callback : ℚ) : Option String :=
  match autoTpSlErrors oracle price roundedQty decimals tpLevels useTrailing callback with
  | [] => none
  | es => some (joinErrors es)

/-- The recording tail of the auto-signal executor (`positionMonitor.ts`
lines 1575-1722): when the entry order succeeded — regardless of the
accumulated `executionError` — push the Trade, the open Position, and a
webhook log with status `'executed'` and `error_message: null` (the
protective-leg error string is written nowhere); otherwise push only a
`'failed'` log carrying `executionError || 'Trade execution failed'`. -/
def recordAutoSignalExecution (db : ExecDB) (userId strategyId : Nat) (pair side : String)
    (price quantity : ℚ) (environment : Env) (orderSuccess : Bool) (orderId : Option Nat)
    (executionError : Option String) (now : Nat) : ExecDB :=
  if orderSuccess = true ∧ orderId.isSome then
    { trades := db.trades ++
        [{ id := db.next_id, user_id := userId, symbol := pair, side := side
           price := price, quantity := quantity, realized_pnl := none
           status := "filled", triggered_by := some "auto_strategy"
           environment := environment, created_at := now }]
      positions := db.positions ++
        [{ id := db.next_id + 1, user_id := userId, symbol := pair
           side := if side == "buy" then PosSide.long else PosSide.short
           size := quantity, entry_price := price, current_price := none
           unrealized_pnl := 0, is_open := true, exchange := "binance"
           environment := environment }]
      webhook_logs := db.webhook_logs ++ [⟨strategyId, "executed", none⟩]
      next_id := db.next_id + 3 }
  else
    { db with
      next_id := db.next_id + 1
      webhook_logs := db.webhook_logs ++
        [⟨strategyId, "failed", some (executionError.getD "Trade execution failed")⟩] }

/-- A venue where the entry fills but the stop-loss leg is rejected. -/
def slFailOracle : Leg → LegResult
  | Leg.entry => ⟨true, some 7, none⟩
  | Leg.stopLoss => ⟨false, none, some "Stop loss rejected"⟩
  | _ => ⟨true, some 8, none⟩

/-- A strategy with one enabled take-profit leg and no trailing stop. -/
def demoStrategy : ExecStrategy :=
  { price := 50000, quantity := 2 / 1000
    tpLevels := [⟨true, 3, 50⟩, ⟨false, 5, 30⟩, ⟨false, 8, 20⟩]
    use_trailing_stop := false, trailing_stop_callback := 0 }

/-- An empty execution-recording database. -/
def emptyExecDB : ExecDB := ⟨[], [], [], 0⟩

section ClaimTheorems

/- Batteries marks the `Rat` arithmetic operations `@[irreducible]`, which
prevents `decide` from evaluating the embedded functions on concrete
inputs; restore reducibility locally for the claim theorems and their
witnesses. -/
attribute [local semireducible] Rat.mul Rat.inv Rat.add Rat.sub Rat.ofScientific

/-! ### The gas-fee gate of the auto-signal generator -/

/-- The gas-fee balance check of the auto-signal generator
(`positionMonitor.ts` lines 1152-1160): the strategy is skipped when
`!gasBalance || gasBalance.balance <= 0`; signal generation proceeds only
when a balance record exists and is strictly positive. -/
def gasGatePasses (bal : Option GasFeeBalance) : Bool :=
  match bal with
  | none => false
  | some b => !(decide (b.balance ≤ 0))

/-! ### Concrete databases used by the witnesses -/

/-- A database with a two-level referral chain above user 1 (profile 101
refers to profile 102 of user 2, which refers to profile 103 of user 3)
and a zero gas balance for user 1. -/
def settleDemoDB : DB :=
  { profiles := [⟨101, 1, some 102⟩, ⟨102, 2, some 103⟩, ⟨103, 3, none⟩]
    trades := []
    positions := []
    gas_fee_balances := [⟨90, 1, Env.testnet, 0, 0, 0⟩]
    gas_fee_transactions := []
    profit_settlements := []
    referral_commissions := []
    admin_earnings := []
    next_id := 200 }

/-- A database whose only user has a gas balance of 100, no referral chain. -/
def lowBalanceDB : DB :=
  { profiles := []
    trades := []
    positions := []
    gas_fee_balances := [⟨90, 1, Env.testnet, 100, 100, 0⟩]
    gas_fee_transactions := []
    profit_settlements := []
    referral_commissions := []
    admin_earnings := []
    next_id := 200 }

/-- A database with one unsettled profitable filled trade and one open
position. -/
def monitorDemoDB : DB :=
  { profiles := []
    trades := [{ id := 1, user_id := 4, symbol := "BTCUSDT", side := "buy"
                 price := 100, quantity := 1, realized_pnl := some 50
                 status := "filled", triggered_by := some "auto_strategy"
                 environment := Env.testnet, created_at := 0 }]
    positions := [{ id := 2, user_id := 4, symbol := "BTCUSDT", side := PosSide.long
                    size := 1, entry_price := 100, current_price := none
                    unrealized_pnl := 0, is_open := true, exchange := "binance"
                    environment := Env.testnet }]
    gas_fee_balances := []
    gas_fee_transactions := []
    profit_settlements := []
    referral_commissions := []
    admin_earnings := []
    next_id := 10 }

/-- The open position stored in `monitorDemoDB`. -/
def demoPosition : Position :=
  { id := 2, user_id := 4, symbol := "BTCUSDT", side := PosSide.long
    size := 1, entry_price := 100, current_price := none
    unrealized_pnl := 0, is_open := true, exchange := "binance"
    environment := Env.testnet }

/-- A tick environment: all credentials present, the venue reports every
position closed (size 0) with unrealized PnL 25 at mark price 110. -/
def demoTickEnv : TickEnv :=
  { hasKeys := fun _ => true
    venue := fun _ => { currentSize := 0, unrealizedPnl := 25, currentPrice := 110 }
    now := 100 }

/-! ### Claim theorems: C1, C2, C10 -/

/-- C1: profit-sharing settlement is idempotent per trade id. Across any
sequence of position-monitor tick invocations from a well-formed state, the
settlement table never holds two rows with the same trade id (the list of
settlement trade ids stays duplicate-free); and when every profitable
filled trade already has a settlement row, the backfill pass returns the
database unchanged — re-invoking settlement for already-settled trade ids
changes no balances, ledger rows, commission rows, or admin-earning rows. -/
theorem C1_settlement_idempotency (db : DB) (ticks : List TickEnv) (h : WF db) :
    (settlementTradeIds (runTicks db ticks)).Nodup ∧
      ((∀ t ∈ profitableFilledTrades db, t.id ∈ settlementTradeIds db) →
        backfill db = db) :=
  ⟨(runTicks_WF ticks db h).1, backfill_noop db⟩

/-- Witness for C1 at a concrete database and two identical ticks. -/
theorem C1_settlement_idempotency_witness :
    WF monitorDemoDB ∧
      ((settlementTradeIds (runTicks monitorDemoDB [demoTickEnv, demoTickEnv])).Nodup ∧
        ((∀ t ∈ profitableFilledTrades monitorDemoDB,
            t.id ∈ settlementTradeIds monitorDemoDB) →
          backfill monitorDemoDB = monitorDemoDB)) :=
  ⟨⟨by decide, by decide, by decide⟩,
    C1_settlement_idempotency monitorDemoDB [demoTickEnv, demoTickEnv]
      ⟨by decide, by decide, by decide⟩⟩

/-- C2: for every settlement with gross profit `g > 0` the engine records
fee `= 0.3·g` and net `= 0.7·g`, deducts the full fee from the trading
user's gas-fee balance (its lifetime `total_deducted` grows by `0.3·g` and
the ledger gains a `service_fee` row of `-0.3·g`), pays each present
referral level k a commission `g·rate(k)` with rates `0.005/0.003/0.002`,
and records `admin_share = fee − (sum of commissions paid)`; at
`g = 1000` with a two-level chain this pays 5 and 3, deducts 300, and
records `admin_share = 292`. -/
theorem C2_fee_split_and_cascade :
    (∀ (db : DB) (u tid : Nat) (g : ℚ) (env : Env), 0 < g →
      (processProfitSharing db u tid g env).profit_settlements.map settlementProj =
          db.profit_settlements.map settlementProj ++
            [(tid, g, g * SERVICE_FEE_RATE, g - g * SERVICE_FEE_RATE)] ∧
      (processProfitSharing db u tid g env).gas_fee_transactions.map
          (fun t => (t.user_id, t.amount, t.transaction_type)) =
        db.gas_fee_transactions.map (fun t => (t.user_id, t.amount, t.transaction_type)) ++
          (u, -(g * SERVICE_FEE_RATE), "service_fee") ::
            (getReferralChain db u).map
              (fun e => (e.2.user_id, g * rateOf e.1, "referral_commission")) ∧
      (processProfitSharing db u tid g env).referral_commissions.map commProj =
        db.referral_commissions.map commProj ++
          (getReferralChain db u).map (fun e => (e.2.user_id, tid, e.1, g * rateOf e.1)) ∧
      (processProfitSharing db u tid g env).admin_earnings.map earnProj =
        db.admin_earnings.map earnProj ++
          [(tid, g * SERVICE_FEE_RATE,
            ((getReferralChain db u).map (fun e => g * rateOf e.1)).sum,
            g * SERVICE_FEE_RATE - ((getReferralChain db u).map (fun e => g * rateOf e.1)).sum)] ∧
      gasDeductedOf (processProfitSharing db u tid g env) u env =
        gasDeductedOf db u env + g * SERVICE_FEE_RATE) ∧
    SERVICE_FEE_RATE = 3 / 10 ∧
    rateOf 1 = 5 / 1000 ∧ rateOf 2 = 3 / 1000 ∧ rateOf 3 = 2 / 1000 ∧
    ((processProfitSharing settleDemoDB 1 77 1000 Env.testnet).referral_commissions.map
        (fun c => (c.beneficiary_user_id, c.level, c.commission_amount)) = [(2, 1, 5), (3, 2, 3)] ∧
      gasBalanceOf (processProfitSharing settleDemoDB 1 77 1000 Env.testnet) 1 Env.testnet = -300 ∧
      (processProfitSharing settleDemoDB 1 77 1000 Env.testnet).profit_settlements.map
        (fun s => (s.service_fee_amount, s.net_profit)) = [(300, 700)] ∧
      (processProfitSharing settleDemoDB 1 77 1000 Env.testnet).admin_earnings.map
        (fun a => (a.total_service_fee, a.referral_commissions_paid, a.admin_share)) =
        [(300, 8, 292)]) := by
  refine ⟨?_, by norm_num [SERVICE_FEE_RATE], by decide, by decide, by decide,
    by decide, by decide, by decide, by decide⟩
  intro db u tid g env hg
  refine ⟨?_, psp_txs_proj db u tid g env hg, psp_comm_proj db u tid g env hg,
    psp_earn_proj db u tid g env hg, psp_deducted db u tid g env hg⟩
  rw [psp_settlements db u tid g env hg]
  simp [settlementProj]

/-- Witness for C2's quantified part at `g = 1000` on the two-level chain. -/
theorem C2_fee_split_and_cascade_witness :
    (0 : ℚ) < 1000 ∧
      ((processProfitSharing settleDemoDB 1 77 1000 Env.testnet).profit_settlements.map
          settlementProj =
        settleDemoDB.profit_settlements.map settlementProj ++
          [(77, 1000, 1000 * SERVICE_FEE_RATE, 1000 - 1000 * SERVICE_FEE_RATE)] ∧
      (processProfitSharing settleDemoDB 1 77 1000 Env.testnet).gas_fee_transactions.map
          (fun t => (t.user_id, t.amount, t.transaction_type)) =
        settleDemoDB.gas_fee_transactions.map
            (fun t => (t.user_id, t.amount, t.transaction_type)) ++
          (1, -(1000 * SERVICE_FEE_RATE), "service_fee") ::
            (getReferralChain settleDemoDB 1).map
              (fun e => (e.2.user_id, 1000 * rateOf e.1, "referral_commission")) ∧
      (processProfitSharing settleDemoDB 1 77 1000 Env.testnet).referral_commissions.map
          commProj =
        settleDemoDB.referral_commissions.map commProj ++
          (getReferralChain settleDemoDB 1).map
            (fun e => (e.2.user_id, 77, e.1, 1000 * rateOf e.1)) ∧
      (processProfitSharing settleDemoDB 1 77 1000 Env.testnet).admin_earnings.map earnProj =
        settleDemoDB.admin_earnings.map earnProj ++
          [(77, 1000 * SERVICE_FEE_RATE,
            ((getReferralChain settleDemoDB 1).map (fun e => 1000 * rateOf e.1)).sum,
            1000 * SERVICE_FEE_RATE -
              ((getReferralChain settleDemoDB 1).map (fun e => 1000 * rateOf e.1)).sum)] ∧
      gasDeductedOf (processProfitSharing settleDemoDB 1 77 1000 Env.testnet) 1 Env.testnet =
        gasDeductedOf settleDemoDB 1 Env.testnet + 1000 * SERVICE_FEE_RATE) :=
  ⟨by norm_num, C2_fee_split_and_cascade.1 settleDemoDB 1 77 1000 Env.testnet (by norm_num)⟩

/-- C3: for a locally open position whose venue-reported size is zero, one
pass of the reconciler's per-position step clears the stored record's open
flag, appends exactly one closing Trade whose realized PnL is the venue's
last reported unrealized PnL and whose trigger source is
`"position_monitor"`, and invokes settlement for that trade at most once —
not at all when the realized PnL is not positive; when the venue-reported
size is non-zero the step keeps the open flag, appends no trade, creates no
settlement and touches no balance/ledger/commission/earning tables, and
changes at most the current price and unrealized PnL of the stored
records. -/
theorem C3_reconciler_close_semantics (venue : Nat → ExchangePos) (now : Nat) (db : DB)
    (pos : Position) (hopen : pos.is_open = true) (hmem : pos ∈ db.positions) :
    ((venue pos.id).currentSize = 0 →
      (((reconcilePosition venue now db pos).positions.find?
          (fun p => p.id == pos.id)).map (fun p => p.is_open) = some false ∧
        (reconcilePosition venue now db pos).trades =
          db.trades ++ [closingTradeOf db.next_id pos (venue pos.id) now] ∧
        (closingTradeOf db.next_id pos (venue pos.id) now).realized_pnl =
          some (venue pos.id).unrealizedPnl ∧
        (closingTradeOf db.next_id pos (venue pos.id) now).triggered_by =
          some "position_monitor" ∧
        settlementTradeIds (reconcilePosition venue now db pos) =
          settlementTradeIds db ++
            (if 0 < (venue pos.id).unrealizedPnl then [db.next_id] else []))) ∧
    ((venue pos.id).currentSize ≠ 0 →
      ((reconcilePosition venue now db pos).trades = db.trades ∧
        (reconcilePosition venue now db pos).profit_settlements = db.profit_settlements ∧
        (reconcilePosition venue now db pos).gas_fee_balances = db.gas_fee_balances ∧
        (reconcilePosition venue now db pos).gas_fee_transactions = db.gas_fee_transactions ∧
        (reconcilePosition venue now db pos).referral_commissions = db.referral_commissions ∧
        (reconcilePosition venue now db pos).admin_earnings = db.admin_earnings ∧
        (reconcilePosition venue now db pos).positions.map (fun p => (p.id, p.is_open)) =
          db.positions.map (fun p => (p.id, p.is_open)) ∧
        List.Forall₂ (fun p q =>
            q = { p with current_price := q.current_price, unrealized_pnl := q.unrealized_pnl })
          db.positions (reconcilePosition venue now db pos).positions)) := by
  constructor
  · intro hzero
    have hcond : (!exchangePosIsOpen (venue pos.id) && pos.is_open) = true := by
      simp [exchangePosIsOpen, hzero, hopen]
    have hany : ((priceRefresh db pos (venue pos.id)).positions.any
        (fun p => p.id == pos.id)) = true := by
      rw [priceRefresh_any]
      exact List.any_eq_true.mpr ⟨pos, hmem, by simp⟩
    simp only [reconcilePosition, hcond, hany, if_true]
    refine ⟨?_, ?_, rfl, rfl, ?_⟩
    · simp only [closeAndSettle, psp_positions]
      exact find?_updateFirstPos_close pos.id _ _ hany
    · simp only [closeAndSettle, psp_trades, priceRefresh_trades, priceRefresh_next_id]
    · by_cases hpn : 0 < (venue pos.id).unrealizedPnl
      · rw [if_pos hpn]
        simp only [closeAndSettle]
        rw [psp_settlement_ids _ _ _ _ _ hpn]
        unfold settlementTradeIds
        simp only [priceRefresh_settlements, priceRefresh_next_id]
      · rw [if_neg hpn]
        simp only [closeAndSettle]
        rw [psp_nonpos _ _ _ _ _ (not_lt.mp hpn)]
        unfold settlementTradeIds
        simp only [priceRefresh_settlements, List.append_nil]
  · intro hnz
    have hcond : (!exchangePosIsOpen (venue pos.id) && pos.is_open) = false := by
      simp [exchangePosIsOpen, hnz]
    simp only [reconcilePosition, hcond, Bool.false_eq_true, if_false]
    exact ⟨priceRefresh_trades db pos _, priceRefresh_settlements db pos _,
      priceRefresh_balances db pos _, priceRefresh_txs db pos _,
      priceRefresh_commissions db pos _, priceRefresh_earnings db pos _,
      priceRefresh_pairs db pos _, priceRefresh_forall2 db pos _⟩

/-- Witness for C3 at a concrete open position: the venue reports size 0
with unrealized PnL 25 at mark price 110. -/
theorem C3_reconciler_close_semantics_witness :
    demoPosition.is_open = true ∧ demoPosition ∈ monitorDemoDB.positions ∧
      ((demoTickEnv.venue demoPosition.id).currentSize = 0 →
        (((reconcilePosition demoTickEnv.venue 100 monitorDemoDB demoPosition).positions.find?
            (fun p => p.id == demoPosition.id)).map (fun p => p.is_open) = some false ∧
          (reconcilePosition demoTickEnv.venue 100 monitorDemoDB demoPosition).trades =
            monitorDemoDB.trades ++
              [closingTradeOf monitorDemoDB.next_id demoPosition
                (demoTickEnv.venue demoPosition.id) 100] ∧
          (closingTradeOf monitorDemoDB.next_id demoPosition
            (demoTickEnv.venue demoPosition.id) 100).realized_pnl =
            some (demoTickEnv.venue demoPosition.id).unrealizedPnl ∧
          (closingTradeOf monitorDemoDB.next_id demoPosition
            (demoTickEnv.venue demoPosition.id) 100).triggered_by =
            some "position_monitor" ∧
          settlementTradeIds (reconcilePosition demoTickEnv.venue 100 monitorDemoDB demoPosition) =
            settlementTradeIds monitorDemoDB ++
              (if 0 < (demoTickEnv.venue demoPosition.id).unrealizedPnl
                then [monitorDemoDB.next_id] else []))) :=
  ⟨rfl, by decide,
    (C3_reconciler_close_semantics demoTickEnv.venue 100 monitorDemoDB demoPosition
      rfl (by decide)).1⟩

/-- C4 (code bug): the reconciler groups open positions under the string
key `userId-exchange-environment` and then recovers the lookup triple with
`key.split('-')`. For the failing input — an owner user id that is a
`crypto.randomUUID()` value, hence hyphenated — the destructured triple is
the first three hyphen-separated fragments of the UUID, not the owner id,
venue, and environment, so the credential lookup cannot match; per the
skip path, a group without a credential match leaves every position
untouched (never marked closed), as the second conjunct shows for a tick
in which no group has credentials. -/
theorem C4_credential_key_misparse :
    (parsedUserId (groupKeyOf "123e4567-e89b-12d3-a456-426614174000" "binance" "testnet") =
        "123e4567" ∧
      parsedExchange (groupKeyOf "123e4567-e89b-12d3-a456-426614174000" "binance" "testnet") =
        "e89b" ∧
      parsedEnvironment (groupKeyOf "123e4567-e89b-12d3-a456-426614174000" "binance" "testnet") =
        "12d3" ∧
      parsedExchange (groupKeyOf "123e4567-e89b-12d3-a456-426614174000" "binance" "testnet") ≠
        "binance") ∧
    (∀ (venue : Nat → ExchangePos) (now : Nat) (db : DB),
      monitorTick (fun _ => false) venue now db = backfill db ∧
      (monitorTick (fun _ => false) venue now db).positions = db.positions) := by
  refine ⟨⟨by decide, by decide, by decide, by decide⟩, ?_⟩
  intro venue now db
  have h1 : monitorTick (fun _ => false) venue now db = backfill db := by
    unfold monitorTick
    simp
  refine ⟨h1, ?_⟩
  rw [h1]
  exact backfillGo_positions _ _ _

/-- C5: the entry-order ladder attempts quantity formatting at 3, then 2,
then 1, then 0 decimals; it stops at the first attempt that succeeds, or
that fails with an error not matching the precision/lot/step/qty/quantity/
"filter failure" patterns (one single attempt, no further retries), and a
precision failure at 3 decimals is retried at 2, then 1, then 0 before the
order is reported failed with the last error. -/
theorem C5_precision_retry_ladder (oracle : Nat → OrderOutcome) (q : ℚ) :
    ((formatQty q 3).isSome = true → (oracle 3).success = true →
      placeOrderWithRetry oracle q = ⟨oracle 3, some 3, [3], none⟩) ∧
    (∀ e : String, (formatQty q 3).isSome = true → oracle 3 = ⟨false, some e⟩ →
      isPrecisionError (some e) = false →
      placeOrderWithRetry oracle q = ⟨⟨false, some e⟩, none, [3], some e⟩) ∧
    ((∀ d ∈ [3, 2, 1, 0], (formatQty q d).isSome = true) →
      (∀ d ∈ [3, 2, 1, 0], (oracle d).success = false ∧
        isPrecisionError (oracle d).error = true) →
      placeOrderWithRetry oracle q =
        ⟨⟨false, (oracle 0).error⟩, none, [3, 2, 1, 0], (oracle 0).error⟩) := by
  refine ⟨?_, ?_, ?_⟩
  · intro hq hs
    obtain ⟨v, hv⟩ := Option.isSome_iff_exists.mp hq
    simp only [placeOrderWithRetry, retryGo, hv, hs, if_true]
    simp [hs]
  · intro e hq h3 hp
    obtain ⟨v, hv⟩ := Option.isSome_iff_exists.mp hq
    simp only [placeOrderWithRetry, retryGo, hv, h3, hp]
    simp
  · intro hq hfail
    obtain ⟨v3, hv3⟩ := Option.isSome_iff_exists.mp (hq 3 (by simp))
    obtain ⟨v2, hv2⟩ := Option.isSome_iff_exists.mp (hq 2 (by simp))
    obtain ⟨v1, hv1⟩ := Option.isSome_iff_exists.mp (hq 1 (by simp))
    obtain ⟨v0, hv0⟩ := Option.isSome_iff_exists.mp (hq 0 (by simp))
    have h3 := hfail 3 (by simp)
    have h2 := hfail 2 (by simp)
    have h1 := hfail 1 (by simp)
    have h0 := hfail 0 (by simp)
    obtain ⟨e0, he0⟩ : ∃ e, (oracle 0).error = some e := by
      cases h : (oracle 0).error with
      | none =>
        have := h0.2
        rw [h] at this
        simp [isPrecisionError] at this
      | some e => exact ⟨e, rfl⟩
    have h0p : isPrecisionError (some e0) = true := by rw [← he0]; exact h0.2
    simp only [placeOrderWithRetry, retryGo, hv3, hv2, hv1, hv0, h3.1, h2.1, h1.1, h0.1,
      h3.2, h2.2, h1.2, h0.2, h0p, Bool.false_eq_true, if_false, if_true, he0]
    simp [initialOrderResult]

/-- A venue that always rejects for a non-precision reason. -/
def insufficientBalanceOracle : Nat → OrderOutcome :=
  fun _ => ⟨false, some "Insufficient balance"⟩

/-- A venue that always rejects for a lot-size reason. -/
def lotSizeOracle : Nat → OrderOutcome :=
  fun _ => ⟨false, some "Lot size filter failure"⟩

/-- Witness for C5 at quantity 1.2345: the non-precision rejection stops
after the single attempt at 3 decimals, and the lot-size rejection walks
the full 3, 2, 1, 0 ladder. -/
theorem C5_precision_retry_ladder_witness :
    ((formatQty (12345 / 10000 : ℚ) 3).isSome = true ∧
      isPrecisionError (some "Insufficient balance") = false ∧
      placeOrderWithRetry insufficientBalanceOracle (12345 / 10000 : ℚ) =
        ⟨⟨false, some "Insufficient balance"⟩, none, [3], some "Insufficient balance"⟩) ∧
    placeOrderWithRetry lotSizeOracle (12345 / 10000 : ℚ) =
      ⟨⟨false, some "Lot size filter failure"⟩, none, [3, 2, 1, 0],
        some "Lot size filter failure"⟩ :=
  ⟨⟨by decide, by decide,
    (C5_precision_retry_ladder insufficientBalanceOracle (12345 / 10000 : ℚ)).2.1
      "Insufficient balance" (by decide) rfl (by decide)⟩,
    (C5_precision_retry_ladder lotSizeOracle (12345 / 10000 : ℚ)).2.2
      (by decide) (by decide)⟩

/-- C6 counterexample: an execution whose entry order succeeds but whose
stop-loss leg fails is NOT treated as a filled entry on the webhook path —
`executeTrade` reports `success: false` with the stop-loss error, and the
route records no Trade and no Position, logging status 'failed'; on the
auto-signal path the entry is recorded, but the accumulated protective-leg
error string is dropped: the log row carries `error_message: null`. -/
theorem C6_partial_failure_counterexample :
    (slFailOracle Leg.entry).success = true ∧
      executeTrade slFailOracle demoStrategy =
        ⟨false, none, some "Stop loss rejected"⟩ ∧
      (recordWebhookExecution emptyExecDB 1 9 "BTCUSDT" "buy" 50000 (2 / 1000) Env.testnet
        (executeTrade slFailOracle demoStrategy) 0).trades = [] ∧
      (recordWebhookExecution emptyExecDB 1 9 "BTCUSDT" "buy" 50000 (2 / 1000) Env.testnet
        (executeTrade slFailOracle demoStrategy) 0).positions = [] ∧
      (recordWebhookExecution emptyExecDB 1 9 "BTCUSDT" "buy" 50000 (2 / 1000) Env.testnet
        (executeTrade slFailOracle demoStrategy) 0).webhook_logs =
        [⟨9, "failed", some "Stop loss rejected"⟩] ∧
      autoExecutionError slFailOracle 50000 (2 / 1000) 3 demoStrategy.tpLevels false 0 =
        some "Stop loss rejected" ∧
      (recordAutoSignalExecution emptyExecDB 1 9 "BTCUSDT" "buy" 50000 (2 / 1000) Env.testnet
        true (some 7)
        (autoExecutionError slFailOracle 50000 (2 / 1000) 3 demoStrategy.tpLevels false 0)
        0).webhook_logs = [⟨9, "executed", none⟩] :=
  ⟨rfl, by decide, by decide, by decide, by decide, by decide, by decide⟩

/-- C6 amended: partial protective-leg failure is handled divergently, and
the error string is not surfaced alongside the success flag. On the
webhook path, an execution whose entry succeeds but whose stop-loss leg
fails is reported as a failure with that leg's error, and no Trade or
Position is recorded — only a 'failed' log. On the auto-signal path, any
execution whose entry succeeded is recorded as filled — Trade and open
Position appended, log status 'executed' — but with `error_message: null`
regardless of the accumulated protective-leg error. -/
theorem C6_partial_failure_amended :
    (∀ (oracle : Leg → LegResult) (s : ExecStrategy) (db : ExecDB)
        (userId strategyId : Nat) (symbol side : String) (env : Env) (now : Nat),
      ¬(round3 s.quantity ≤ 0) → (oracle Leg.entry).success = true → s.price > 0 →
      (oracle Leg.stopLoss).success = false →
      (executeTrade oracle s =
          ⟨false, none, some ((oracle Leg.stopLoss).error.getD "Stop loss failed")⟩ ∧
        (recordWebhookExecution db userId strategyId symbol side s.price (round3 s.quantity)
          env (executeTrade oracle s) now).trades = db.trades ∧
        (recordWebhookExecution db userId strategyId symbol side s.price (round3 s.quantity)
          env (executeTrade oracle s) now).positions = db.positions ∧
        (recordWebhookExecution db userId strategyId symbol side s.price (round3 s.quantity)
          env (executeTrade oracle s) now).webhook_logs =
          db.webhook_logs ++
            [⟨strategyId, "failed",
              some ((oracle Leg.stopLoss).error.getD "Stop loss failed")⟩])) ∧
    (∀ (db : ExecDB) (userId strategyId : Nat) (pair side : String) (price quantity : ℚ)
        (env : Env) (oid : Nat) (executionError : Option String) (now : Nat),
      (recordAutoSignalExecution db userId strategyId pair side price quantity env true
          (some oid) executionError now).trades.length = db.trades.length + 1 ∧
        (recordAutoSignalExecution db userId strategyId pair side price quantity env true
          (some oid) executionError now).positions.map (fun p => p.is_open) =
          db.positions.map (fun p => p.is_open) ++ [true] ∧
        (recordAutoSignalExecution db userId strategyId pair side price quantity env true
          (some oid) executionError now).webhook_logs =
          db.webhook_logs ++ [⟨strategyId, "executed", none⟩]) := by
  constructor
  · intro oracle s db userId strategyId symbol side env now hq he hp hsl
    have hexec : executeTrade oracle s =
        ⟨false, none, some ((oracle Leg.stopLoss).error.getD "Stop loss failed")⟩ := by
      unfold executeTrade
      rw [if_neg hq, if_neg (by rw [he]; simp), if_pos hp, if_pos (by rw [hsl])]
    refine ⟨hexec, ?_, ?_, ?_⟩ <;>
      rw [hexec] <;> unfold recordWebhookExecution <;> simp
  · intro db userId strategyId pair side price quantity env oid executionError now
    unfold recordAutoSignalExecution
    rw [if_pos (by simp)]
    refine ⟨by simp, by simp, rfl⟩

/-- Witness for C6's amended statement at the concrete stop-loss-failing
venue. -/
theorem C6_partial_failure_amended_witness :
    ¬(round3 demoStrategy.quantity ≤ 0) ∧ (slFailOracle Leg.entry).success = true ∧
      demoStrategy.price > 0 ∧ (slFailOracle Leg.stopLoss).success = false ∧
      (executeTrade slFailOracle demoStrategy =
          ⟨false, none, some ((slFailOracle Leg.stopLoss).error.getD "Stop loss failed")⟩ ∧
        (recordWebhookExecution emptyExecDB 1 9 "BTCUSDT" "buy" demoStrategy.price
          (round3 demoStrategy.quantity) Env.testnet (executeTrade slFailOracle demoStrategy)
          0).trades = emptyExecDB.trades ∧
        (recordWebhookExecution emptyExecDB 1 9 "BTCUSDT" "buy" demoStrategy.price
          (round3 demoStrategy.quantity) Env.testnet (executeTrade slFailOracle demoStrategy)
          0).positions = emptyExecDB.positions ∧
        (recordWebhookExecution emptyExecDB 1 9 "BTCUSDT" "buy" demoStrategy.price
          (round3 demoStrategy.quantity) Env.testnet (executeTrade slFailOracle demoStrategy)
          0).webhook_logs =
          emptyExecDB.webhook_logs ++
            [⟨9, "failed",
              some ((slFailOracle Leg.stopLoss).error.getD "Stop loss failed")⟩]) :=
  ⟨by decide, rfl, by decide, rfl,
    C6_partial_failure_amended.1 slFailOracle demoStrategy emptyExecDB 1 9 "BTCUSDT" "buy"
      Env.testnet 0 (by decide) rfl (by decide) rfl⟩

/-- C9 counterexample: for prices [1, 2, 3] with period 1 the single
output index has smoothed average loss 0, yet `calculateRSI` returns
10000/101 ≈ 99.0099, not 100 — the code substitutes `rs = 100` when
`avgLoss === 0`, giving `100 − 100/101` instead of 100. -/
theorem C9_rsi_loss_zero_counterexample :
    rsiAvgLosses [1, 2, 3] 1 = [0] ∧
      calculateRSI [1, 2, 3] 1 = [10000 / 101] ∧ (10000 / 101 : ℚ) ≠ 100 :=
  ⟨by decide, by decide, by decide⟩

/-- C9 amended: at every output index where the Wilder-smoothed average
loss is zero, `calculateRSI` returns `100 − 100/101` (= 10000/101 ≈
99.0099, the maximal value the implementation can produce), and the RSI of
a strictly increasing price series is constantly that value. -/
theorem C9_rsi_loss_zero_amended (prices : List ℚ) (period : Nat) :
    (∀ (i : Nat) (h1 : i < (rsiAvgLosses prices period).length)
        (h2 : i < (calculateRSI prices period).length),
      (rsiAvgLosses prices period).get ⟨i, h1⟩ = 0 →
      (calculateRSI prices period).get ⟨i, h2⟩ = 100 - 100 / 101) ∧
    (List.Chain' (· < ·) prices →
      ∀ v ∈ calculateRSI prices period, v = 100 - 100 / 101) :=
  ⟨calculateRSI_loss_zero prices period, calculateRSI_increasing prices period⟩

/-- Witness for C9's amended statement on the strictly increasing series
[1, 2, 3, 4] with period 1. -/
theorem C9_rsi_loss_zero_amended_witness :
    List.Chain' (· < ·) ([1, 2, 3, 4] : List ℚ) ∧
      ∀ v ∈ calculateRSI [1, 2, 3, 4] 1, v = 100 - 100 / 101 :=
  ⟨by simp only [List.chain'_cons, List.chain'_singleton]; norm_num,
    (C9_rsi_loss_zero_amended [1, 2, 3, 4] 1).2
      (by simp only [List.chain'_cons, List.chain'_singleton]; norm_num)⟩

/-- C7: for every strategy with a configured `max_daily_loss = m > 0`, if
the owner's cumulative realized PnL over trades created since UTC midnight
is `≤ −m`, the gate skips the strategy before any signal generation: the
gate result is one of the pre-signal skips (a strategy outside its session
or over its trade cap is also skipped before signal generation), the
strategy contributes no per-pair results for the tick, and when the two
earlier checks pass the skip is precisely the daily-loss rejection. -/
theorem C7_daily_loss_gate {α : Type} (sessionOk : Bool) (trades : List Trade)
    (userId dayStart : Nat) (maxTradesPerDay m : ℚ) (rest : GateResult)
    (pairResults : List α) (hm : 0 < m)
    (hloss : dailyPnl trades userId dayStart ≤ -m) :
    (strategyGate sessionOk trades userId dayStart maxTradesPerDay m rest =
        GateResult.sessionSkip ∨
      strategyGate sessionOk trades userId dayStart maxTradesPerDay m rest =
        GateResult.maxTradesSkip ∨
      strategyGate sessionOk trades userId dayStart maxTradesPerDay m rest =
        GateResult.dailyLossSkip) ∧
    gatedSignals (strategyGate sessionOk trades userId dayStart maxTradesPerDay m rest)
      pairResults = [] ∧
    (sessionOk = true →
      ¬(maxTradesPerDay > 0 ∧
        (dailyTradeCount trades userId dayStart : ℚ) ≥ maxTradesPerDay) →
      strategyGate sessionOk trades userId dayStart maxTradesPerDay m rest =
        GateResult.dailyLossSkip) := by
  unfold strategyGate
  by_cases hs : sessionOk = false
  · rw [if_pos hs]
    exact ⟨Or.inl rfl, rfl, fun ht _ => absurd ht (by rw [hs]; simp)⟩
  · rw [if_neg hs]
    by_cases hmt : maxTradesPerDay > 0 ∧
      (dailyTradeCount trades userId dayStart : ℚ) ≥ maxTradesPerDay
    · rw [if_pos hmt]
      exact ⟨Or.inr (Or.inl rfl), rfl, fun _ hnt => absurd hmt hnt⟩
    · rw [if_neg hmt, if_pos ⟨hm, hloss⟩]
      exact ⟨Or.inr (Or.inr rfl), rfl, fun _ _ => rfl⟩

/-- A losing trade of the day: realized PnL −150. -/
def lossTrade : Trade :=
  { id := 5, user_id := 1, symbol := "BTCUSDT", side := "sell", price := 100
    quantity := 1, realized_pnl := some (-150), status := "filled"
    triggered_by := some "position_monitor", environment := Env.testnet
    created_at := 30 }

/-- Witness for C7: `max_daily_loss = 100` with accumulated daily realized
PnL −150 rejects with the daily-loss skip. -/
theorem C7_daily_loss_gate_witness :
    (0 : ℚ) < 100 ∧ dailyPnl [lossTrade] 1 0 ≤ -100 ∧
      ((strategyGate true [lossTrade] 1 0 0 100 GateResult.proceed =
          GateResult.sessionSkip ∨
        strategyGate true [lossTrade] 1 0 0 100 GateResult.proceed =
          GateResult.maxTradesSkip ∨
        strategyGate true [lossTrade] 1 0 0 100 GateResult.proceed =
          GateResult.dailyLossSkip) ∧
      gatedSignals (strategyGate true [lossTrade] 1 0 0 100 GateResult.proceed)
        ["BTCUSDT"] = [] ∧
      (true = true →
        ¬((0 : ℚ) > 0 ∧ (dailyTradeCount [lossTrade] 1 0 : ℚ) ≥ 0) →
        strategyGate true [lossTrade] 1 0 0 100 GateResult.proceed =
          GateResult.dailyLossSkip)) :=
  ⟨by norm_num, by decide,
    C7_daily_loss_gate true [lossTrade] 1 0 0 100 GateResult.proceed ["BTCUSDT"]
      (by norm_num) (by decide)⟩

/-- C8 counterexample: the claim that the effective oversold threshold is
always ≤ 30 and the effective overbought threshold always ≥ 70 fails — a
caller-supplied oversold threshold of 40 passes through unchanged (so an
RSI of 35 is classified oversold), and an overbought threshold of 60 stays
below 70 (so an RSI of 62 is classified overbought). -/
theorem C8_rsi_band_counterexample :
    rsiOversoldEff 40 = 40 ∧ ¬(rsiOversoldEff 40 ≤ 30) ∧
      rsiOverboughtEff 60 = 60 ∧ ¬(70 ≤ rsiOverboughtEff 60) ∧
      classifyRSI ⟨60, 40⟩ 35 = RsiVerdict.oversold ∧
      classifyRSI ⟨60, 40⟩ 62 = RsiVerdict.overbought :=
  ⟨by decide, by decide, by decide, by decide, by decide, by decide⟩

/-- C8 amended: a caller oversold threshold at or below 30 is tightened to
25 and an overbought threshold at or above 70 is tightened to 75, but any
other caller value is used unchanged — so configuration can also loosen
the bands beyond 30/70, and the oversold/overbought classification follows
the resulting effective thresholds. -/
theorem C8_rsi_band_amended (ob os rsi : ℚ) :
    (os ≤ 30 → (classifyRSI ⟨ob, os⟩ rsi = RsiVerdict.oversold ↔ rsi < 25)) ∧
    (30 < os → (classifyRSI ⟨ob, os⟩ rsi = RsiVerdict.oversold ↔ rsi < os)) ∧
    (70 ≤ ob →
      (classifyRSI ⟨ob, os⟩ rsi = RsiVerdict.overbought ↔
        ¬(rsi < rsiOversoldEff os) ∧ 75 < rsi)) ∧
    (ob < 70 →
      (classifyRSI ⟨ob, os⟩ rsi = RsiVerdict.overbought ↔
        ¬(rsi < rsiOversoldEff os) ∧ ob < rsi)) := by
  refine ⟨?_, ?_, ?_, ?_⟩
  · intro h
    unfold classifyRSI rsiOversoldEff
    rw [if_pos h]
    by_cases hc : rsi < 25
    · simp [hc]
    · simp only [hc, if_false, iff_false]
      split <;> simp
  · intro h
    unfold classifyRSI rsiOversoldEff
    rw [if_neg (not_le.mpr h)]
    by_cases hc : rsi < os
    · simp [hc]
    · simp only [hc, if_false, iff_false]
      split <;> simp
  · intro h
    unfold classifyRSI rsiOverboughtEff
    rw [if_pos h]
    by_cases hc : rsi < rsiOversoldEff os
    · simp [hc]
    · by_cases hb : rsi > 75 <;> simp [hc, hb]
  · intro h
    unfold classifyRSI rsiOverboughtEff
    rw [if_neg (not_le.mpr h)]
    by_cases hc : rsi < rsiOversoldEff os
    · simp [hc]
    · by_cases hb : rsi > ob <;> simp [hc, hb]

/-- Witness for C8's amended statement: with config oversold 40 and
overbought 60, an RSI of 35 is oversold (since 35 < 40) and an RSI of 62
is overbought (since 62 > 60). -/
theorem C8_rsi_band_amended_witness :
    (30 : ℚ) < 40 ∧
      (classifyRSI ⟨60, 40⟩ 35 = RsiVerdict.oversold ↔ (35 : ℚ) < 40) ∧
      (60 : ℚ) < 70 ∧
      (classifyRSI ⟨60, 40⟩ 62 = RsiVerdict.overbought ↔
        ¬((62 : ℚ) < rsiOversoldEff 40) ∧ (60 : ℚ) < 62) :=
  ⟨by norm_num, (C8_rsi_band_amended 60 40 35).2.1 (by norm_num), by norm_num,
    (C8_rsi_band_amended 60 40 62).2.2.2 (by norm_num)⟩

/-- C10: settlement is never withheld for insufficient gas-fee balance —
the full fee `0.3·g` is deducted unconditionally (lifetime `total_deducted`
always grows by the fee and a settlement row is always recorded, with no
non-negativity check), so the resulting balance can go negative, even
though the auto-signal generator requires a strictly positive gas-fee
balance before generating signals. -/
theorem C10_fee_deducted_unconditionally :
    (∀ (db : DB) (u tid : Nat) (g : ℚ) (env : Env), 0 < g →
      gasDeductedOf (processProfitSharing db u tid g env) u env =
          gasDeductedOf db u env + g * SERVICE_FEE_RATE ∧
        (processProfitSharing db u tid g env).profit_settlements.length =
          db.profit_settlements.length + 1) ∧
    (∀ b : GasFeeBalance, gasGatePasses (some b) = true ↔ 0 < b.balance) ∧
    gasGatePasses none = false ∧
    (gasGatePasses (lowBalanceDB.gas_fee_balances.find? (balKey 1 Env.testnet)) = true ∧
      gasBalanceOf (processProfitSharing lowBalanceDB 1 77 1000 Env.testnet) 1 Env.testnet =
        -200 ∧
      (processProfitSharing lowBalanceDB 1 77 1000 Env.testnet).profit_settlements.length = 1 ∧
      gasGatePasses ((processProfitSharing lowBalanceDB 1 77 1000 Env.testnet).gas_fee_balances.find?
        (balKey 1 Env.testnet)) = false) := by
  refine ⟨?_, ?_, rfl, by decide, by decide, by decide, by decide⟩
  · intro db u tid g env hg
    refine ⟨psp_deducted db u tid g env hg, ?_⟩
    rw [psp_settlements db u tid g env hg]
    simp
  · intro b
    simp [gasGatePasses, not_le]

/-- Witness for C10's quantified part at `g = 1000` on the low balance. -/
theorem C10_fee_deducted_unconditionally_witness :
    (0 : ℚ) < 1000 ∧
      (gasDeductedOf (processProfitSharing lowBalanceDB 1 77 1000 Env.testnet) 1 Env.testnet =
          gasDeductedOf lowBalanceDB 1 Env.testnet + 1000 * SERVICE_FEE_RATE ∧
        (processProfitSharing lowBalanceDB 1 77 1000 Env.testnet).profit_settlements.length =
          lowBalanceDB.profit_settlements.length + 1) :=
  ⟨by norm_num,
    C10_fee_deducted_unconditionally.1 lowBalanceDB 1 77 1000 Env.testnet (by norm_num)⟩

end ClaimTheorems

end Bybitron
